import Mathlib

/-!
# owl : low-level context interface (`include/owl/llowl.h`) and `common/parallel/parallel_for.h`

A shallow embedding of the handle-based low-level interface and of the
fork-join helpers, together with the properties stated about them.

* `LLOResult`, the callback types and the C++ callable-taking overloads are
  translated from `llowl.h`.
* The bodies of the C operations declared in `llowl.h` are not part of the
  translated sources; every definition that stands for such a body carries a
  doc comment starting with "Modelled from the spec:".
* `serial_for` and `parallel_for` are translated from `parallel_for.h`.
-/

namespace owl

/-! ## `llowl.h` : result codes -/

/-- The enum `LLOResult` of `llowl.h`: `LLO_SUCCESS = 0` ("no error - API did
what it was asked to do") followed by `LLO_UNKNOWN_ERROR` ("some un-specified
error happened"). -/
inductive LLOResult where
  | LLO_SUCCESS
  | LLO_UNKNOWN_ERROR
  deriving DecidableEq, Repr

/-- The integer value of an enumerator: `LLO_SUCCESS` is given `0` explicitly,
`LLO_UNKNOWN_ERROR` follows it and so is `1`. -/
def LLOResult.toInt : LLOResult → Int
  | .LLO_SUCCESS => 0
  | .LLO_UNKNOWN_ERROR => 1

/-- A result code is a failure value when it is not `LLO_SUCCESS`. -/
def LLOResult.isFailure (r : LLOResult) : Bool :=
  r != .LLO_SUCCESS

/-! ## `llowl.h` : callback types

Pointers are addresses.  A callback runs for its effect on the program state
(the record it fills, whatever its user data refers to), so a callback is a
function from its arguments to a transformer of a state type `σ`. -/

/-- The type `const void *`: an untyped address. -/
abbrev VoidPtr := Nat

/-- The type `uint8_t *`: the address of the first byte of a writable buffer view. -/
abbrev BytePtr := Nat

/-- The callback type `LLOWriteUserGeomBoundsDataCB(userGeomDataToWrite, deviceID, geomID,
childID, cbUserData)`. -/
abbrev LLOWriteUserGeomBoundsDataCB (σ : Type) :=
  BytePtr → Int → Int → Int → VoidPtr → σ → σ

/-- The callback type `LLOWriteLaunchParamsCB(userGeomDataToWrite, deviceID, cbUserData)`. -/
abbrev LLOWriteLaunchParamsCB (σ : Type) :=
  BytePtr → Int → VoidPtr → σ → σ

/-- The callback type `LLOWriteHitProgDataCB(hitProgDataToWrite, deviceID, geomID, rayType,
callBackUserData)`. -/
abbrev LLOWriteHitProgDataCB (σ : Type) :=
  BytePtr → Int → Int → Int → VoidPtr → σ → σ

/-- The callback type `LLOWriteRayGenDataCB(rayGenDataToWrite, deviceID, rayGenID,
callBackUserData)`. -/
abbrev LLOWriteRayGenDataCB (σ : Type) :=
  BytePtr → Int → Int → VoidPtr → σ → σ

/-- The callback type `LLOWriteMissProgDataCB(missProgDataToWrite, deviceID, rayType,
callBackUserData)`. -/
abbrev LLOWriteMissProgDataCB (σ : Type) :=
  BytePtr → Int → Int → VoidPtr → σ → σ

/-! ## `llowl.h` : the C++ callable-taking overloads

Each overload takes the callable by reference (`const Lambda &l`), i.e. by the
address at which the callable lives, and hands the C operation of the same
name a capture-less lambda together with `(const void *)&l`.  `deref` gives the
callable stored at an address (`*(const Lambda *)cbData`); the C operation is a
parameter, it takes the context handle, the callback, the user-data pointer
and the program state and returns its `LLOResult` and the new state.  All five
overloads are declared `void`. -/

/-- A callable taking `(output, devID, id)`: ray-gen and miss records. -/
abbrev Lambda3 (σ : Type) := BytePtr → Int → Int → σ → σ

/-- A callable taking `(output, devID, geomID, rayTypeID)` or
`(output, devID, geomID, childID)`: hit records and primitive bounds. -/
abbrev Lambda4 (σ : Type) := BytePtr → Int → Int → Int → σ → σ

/-- A callable taking `(output, devID)`: launch parameters. -/
abbrev Lambda2 (σ : Type) := BytePtr → Int → σ → σ

/-- The lambda installed by the `lloSbtRayGensBuild` overload:
`[](uint8_t *output, int devID, int rgID, const void *cbData)
 { const Lambda *lambda = (const Lambda *)cbData; (*lambda)(output,devID,rgID); }`. -/
def rayGenCallback {σ : Type} (deref : VoidPtr → Option (Lambda3 σ)) :
    LLOWriteRayGenDataCB σ :=
  fun output devID rgID cbData s =>
    match deref cbData with
    | some lambda => lambda output devID rgID s
    | none => s

/-- The lambda installed by the `lloSbtHitProgsBuild` overload. -/
def hitProgCallback {σ : Type} (deref : VoidPtr → Option (Lambda4 σ)) :
    LLOWriteHitProgDataCB σ :=
  fun output devID geomID rayTypeID cbData s =>
    match deref cbData with
    | some lambda => lambda output devID geomID rayTypeID s
    | none => s

/-- The lambda installed by the `lloSbtMissProgsBuild` overload. -/
def missProgCallback {σ : Type} (deref : VoidPtr → Option (Lambda3 σ)) :
    LLOWriteMissProgDataCB σ :=
  fun output devID rgID cbData s =>
    match deref cbData with
    | some lambda => lambda output devID rgID s
    | none => s

/-- The lambda installed by the `lloGroupBuildPrimitiveBounds` overload. -/
def userGeomBoundsCallback {σ : Type} (deref : VoidPtr → Option (Lambda4 σ)) :
    LLOWriteUserGeomBoundsDataCB σ :=
  fun output devID geomID childID cbData s =>
    match deref cbData with
    | some lambda => lambda output devID geomID childID s
    | none => s

/-- The lambda installed by the `lloParamsLaunch2D` overload. -/
def launchParamsCallback {σ : Type} (deref : VoidPtr → Option (Lambda2 σ)) :
    LLOWriteLaunchParamsCB σ :=
  fun output devID cbData s =>
    match deref cbData with
    | some lambda => lambda output devID s
    | none => s

/-- The overload `template<typename Lambda> void lloSbtRayGensBuild(LLOContext llo,
const Lambda &l)`; `lAddr` is `&l`. -/
def lloSbtRayGensBuild_cpp {Ctx σ : Type}
    (lloSbtRayGensBuild : Ctx → LLOWriteRayGenDataCB σ → VoidPtr → σ → LLOResult × σ)
    (deref : VoidPtr → Option (Lambda3 σ))
    (llo : Ctx) (lAddr : VoidPtr) (s : σ) : Unit × σ :=
  ((), (lloSbtRayGensBuild llo (rayGenCallback deref) lAddr s).2)

/-- The overload `template<typename Lambda> void lloSbtHitProgsBuild(LLOContext llo,
const Lambda &l)`; `lAddr` is `&l`. -/
def lloSbtHitProgsBuild_cpp {Ctx σ : Type}
    (lloSbtHitProgsBuild : Ctx → LLOWriteHitProgDataCB σ → VoidPtr → σ → LLOResult × σ)
    (deref : VoidPtr → Option (Lambda4 σ))
    (llo : Ctx) (lAddr : VoidPtr) (s : σ) : Unit × σ :=
  ((), (lloSbtHitProgsBuild llo (hitProgCallback deref) lAddr s).2)

/-- The overload `template<typename Lambda> void lloSbtMissProgsBuild(LLOContext llo,
const Lambda &l)`; `lAddr` is `&l`. -/
def lloSbtMissProgsBuild_cpp {Ctx σ : Type}
    (lloSbtMissProgsBuild : Ctx → LLOWriteMissProgDataCB σ → VoidPtr → σ → LLOResult × σ)
    (deref : VoidPtr → Option (Lambda3 σ))
    (llo : Ctx) (lAddr : VoidPtr) (s : σ) : Unit × σ :=
  ((), (lloSbtMissProgsBuild llo (missProgCallback deref) lAddr s).2)

/-- The overload `template<typename Lambda> void lloGroupBuildPrimitiveBounds(
LLOContext llo, uint32_t groupID, size_t sizeOfData, const Lambda &l)`; `lAddr`
is `&l`.  The `uint32_t groupID` is converted to the `int32_t` parameter of the
C operation, `sizeOfData` is passed on as `maxGeomDataSize`. -/
def lloGroupBuildPrimitiveBounds_cpp {Ctx σ : Type}
    (lloGroupBuildPrimitiveBounds :
      Ctx → Int → Nat → LLOWriteUserGeomBoundsDataCB σ → VoidPtr → σ → LLOResult × σ)
    (deref : VoidPtr → Option (Lambda4 σ))
    (llo : Ctx) (groupID : Nat) (sizeOfData : Nat) (lAddr : VoidPtr) (s : σ) : Unit × σ :=
  let groupID32 : Int :=
    if groupID % 2 ^ 32 < 2 ^ 31 then (groupID % 2 ^ 32 : Nat) else (groupID % 2 ^ 32 : Nat) - 2 ^ 32
  ((), (lloGroupBuildPrimitiveBounds llo groupID32 sizeOfData
          (userGeomBoundsCallback deref) lAddr s).2)

/-- The overload `template<typename Lambda> void lloParamsLaunch2D(LLOContext llo,
int32_t rayGenID, int32_t Nx, int32_t Ny, int32_t launchParamsObjectID,
const Lambda &l)`; `lAddr` is `&l`. -/
def lloParamsLaunch2D_cpp {Ctx σ : Type}
    (lloParamsLaunch2D :
      Ctx → Int → Int → Int → Int → LLOWriteLaunchParamsCB σ → VoidPtr → σ → LLOResult × σ)
    (deref : VoidPtr → Option (Lambda2 σ))
    (llo : Ctx) (rayGenID Nx Ny launchParamsObjectID : Int) (lAddr : VoidPtr) (s : σ) :
    Unit × σ :=
  ((), (lloParamsLaunch2D llo rayGenID Nx Ny launchParamsObjectID
          (launchParamsCallback deref) lAddr s).2)

/-- A callable of three arguments that does nothing but append its arguments to
a call log. -/
def record3 : Lambda3 (List (BytePtr × Int × Int)) :=
  fun output devID id log => log ++ [(output, devID, id)]

/-- A callable of four arguments that does nothing but append its arguments to
a call log. -/
def record4 : Lambda4 (List (BytePtr × Int × Int × Int)) :=
  fun output devID id k log => log ++ [(output, devID, id, k)]

/-- A callable of two arguments that does nothing but append its arguments to a
call log. -/
def record2 : Lambda2 (List (BytePtr × Int)) :=
  fun output devID log => log ++ [(output, devID)]

/-- An object store holding the single callable `l` at address `a`. -/
def storeAt {L : Type} (a : VoidPtr) (l : L) : VoidPtr → Option L :=
  fun p => if p = a then some l else none

/-- A C operation that invokes its three-argument callback once for every
listed `(output, deviceID, id)`, in order, each time with the user data it was
handed, and then returns `result`. -/
def invokeEach3 {Ctx σ : Type} (slots : List (BytePtr × Int × Int)) (result : LLOResult) :
    Ctx → (BytePtr → Int → Int → VoidPtr → σ → σ) → VoidPtr → σ → LLOResult × σ :=
  fun _ cb cbData s => (result, slots.foldl (fun t c => cb c.1 c.2.1 c.2.2 cbData t) s)

/-- A C operation that invokes its four-argument callback once for every listed
`(output, deviceID, id, k)`, in order, each time with the user data it was
handed, and then returns `result`. -/
def invokeEach4 {Ctx σ : Type} (slots : List (BytePtr × Int × Int × Int)) (result : LLOResult) :
    Ctx → (BytePtr → Int → Int → Int → VoidPtr → σ → σ) → VoidPtr → σ → LLOResult × σ :=
  fun _ cb cbData s => (result, slots.foldl (fun t c => cb c.1 c.2.1 c.2.2.1 c.2.2.2 cbData t) s)

/-- A C operation that calls nothing and leaves, as the state, the user-data
pointer it was handed (three-argument callback). -/
def userDataOf3 {Ctx : Type} :
    Ctx → (BytePtr → Int → Int → VoidPtr → VoidPtr → VoidPtr) → VoidPtr → VoidPtr
      → LLOResult × VoidPtr :=
  fun _ _ cbData _ => (.LLO_SUCCESS, cbData)

/-- A C operation that calls nothing and leaves, as the state, the user-data
pointer it was handed (four-argument callback). -/
def userDataOf4 {Ctx : Type} :
    Ctx → (BytePtr → Int → Int → Int → VoidPtr → VoidPtr → VoidPtr) → VoidPtr → VoidPtr
      → LLOResult × VoidPtr :=
  fun _ _ cbData _ => (.LLO_SUCCESS, cbData)

/-- A C operation that calls nothing and leaves, as the state, the user-data
pointer it was handed (two-argument callback). -/
def userDataOf2 {Ctx : Type} :
    Ctx → (BytePtr → Int → VoidPtr → VoidPtr → VoidPtr) → VoidPtr → VoidPtr
      → LLOResult × VoidPtr :=
  fun _ _ cbData _ => (.LLO_SUCCESS, cbData)

/-- A C operation that invokes its two-argument callback once for every listed
`(output, deviceID)`, in order, each time with the user data it was handed, and
then returns `result`. -/
def invokeEach2 {Ctx σ : Type} (slots : List (BytePtr × Int)) (result : LLOResult) :
    Ctx → (BytePtr → Int → VoidPtr → σ → σ) → VoidPtr → σ → LLOResult × σ :=
  fun _ cb cbData s => (result, slots.foldl (fun t c => cb c.1 c.2 cbData t) s)

/-! ## The context behind `LLOContext`

`llowl.h` declares the C operations on an `LLOContext`; their bodies are not
among the translated sources.  The definitions of this section stand for those
bodies, for the operations and checks that the stated properties involve.  The
signatures (argument order, `int32_t` as `Int`, `size_t` as `Nat`, the
`LLOResult` returned) are those of the header. -/

/-- Modelled from the spec: the kinds of failure of the error taxonomy; the body
of every C operation is missing, and with it the diagnostic it records.  A
failed operation returns `LLO_UNKNOWN_ERROR` and records one of these as the
context's queryable last error. -/
inductive LLOError where
  | InvalidHandle
  | UnknownResource
  | ProgramNotFound
  | InvalidRayType
  | ConflictingBoundsSource
  | CompilationFailure
  | InstancingDepthExceeded
  | BackendFailure
  deriving DecidableEq, Repr

/-- Modelled from the spec: a slot of a handle table.  A slot is unset, or it is
reserved by `alloc` for a resource that is not yet created, or it holds the
resource created in it. -/
inductive Slot (α : Type) where
  | unset
  | reserved
  | created (resource : α)

/-- Modelled from the spec: the handle table behind the missing bodies of the
`lloAlloc*` operations, a dense array of slots indexed by ID. -/
structure HandleTable (α : Type) where
  slots : List (Slot α)

/-- The number of IDs a table has reserved. -/
def HandleTable.size {α : Type} (t : HandleTable α) : Nat :=
  t.slots.length

/-- Modelled from the spec: `alloc(kind, count)` (the missing body shared by the
`lloAlloc*` operations) reserves the IDs `[0,count)`, replacing any prior table
and destroying its entries first: the new table has `count` reserved slots
(the header: `count` is the "number of buffers valid after this function
call"), none of them holding a resource yet.  A count below zero reserves no
ID. -/
def HandleTable.alloc {α : Type} (_prior : HandleTable α) (count : Int) : HandleTable α :=
  ⟨List.replicate count.toNat .reserved⟩

/-- Whether an ID is within the reserved range of a table. -/
def HandleTable.inRange {α : Type} (t : HandleTable α) (id : Int) : Bool :=
  decide (0 ≤ id) && decide (id < t.size)

/-- Modelled from the spec: `get(kind, id)` (the missing lookup of the handle
table) fails with InvalidHandle if `id` is out of range or the slot is unset;
otherwise it succeeds and hands out the resource of the slot, `none` for a
reserved slot in which no resource is created yet. -/
def HandleTable.lookup {α : Type} (t : HandleTable α) (id : Int) : Except LLOError (Option α) :=
  if id < 0 then .error .InvalidHandle
  else
    match t.slots[id.toNat]? with
    | none => .error .InvalidHandle
    | some .unset => .error .InvalidHandle
    | some .reserved => .ok none
    | some (.created r) => .ok (some r)

/-- Modelled from the spec: the resource an operation works on: the lookup of
its ID, which fails with InvalidHandle as above, and then the resource created
under the ID; an operation on a not-yet-created resource fails with
UnknownResource. -/
def HandleTable.get {α : Type} (t : HandleTable α) (id : Int) : Except LLOError α :=
  match t.lookup id with
  | .error e => .error e
  | .ok none => .error .UnknownResource
  | .ok (some r) => .ok r

/-- Store a created resource in the slot of an ID; IDs outside the table are
left alone (the operations check the range first). -/
def HandleTable.set {α : Type} (t : HandleTable α) (id : Int) (r : α) : HandleTable α :=
  if id < 0 then t else ⟨t.slots.set id.toNat (.created r)⟩

/-- Unset the slot of an ID, destroying what it holds; IDs outside the table are
left alone. -/
def HandleTable.unset {α : Type} (t : HandleTable α) (id : Int) : HandleTable α :=
  if id < 0 then t else ⟨t.slots.set id.toNat .unset⟩

/-- A `float`, which the operations only copy: its 32-bit pattern. -/
abbrev F32 := Nat

/-- The twelve floats a `const float *xfm` points to. -/
abbrev Xfm := Fin 12 → F32

/-- Modelled from the spec: the backing kind of a buffer. -/
inductive BufferKind where
  | deviceLocal
  | hostPinned
  | managed
  deriving DecidableEq, Repr

/-- Modelled from the spec: a buffer, with its backing kind and size. -/
structure Buffer where
  kind : BufferKind
  sizeInBytes : Nat
  deriving DecidableEq, Repr

/-- Modelled from the spec: a launch-params object, sized from the declared
struct size. -/
structure LaunchParams where
  sizeOfVarsStruct : Nat
  deriving DecidableEq, Repr

/-- Modelled from the spec: a module holds its source text and, once "build
modules" has compiled it, the entry points the compiler found in it. -/
structure Module where
  ptxCode : String
  entryPoints : Option (List String)
  deriving DecidableEq, Repr

/-- Modelled from the spec: a program is an entry-point name resolved in a
module. -/
structure Program where
  moduleID : Int
  programName : String
  deriving DecidableEq, Repr

/-- Modelled from the spec: a ray-gen or miss program with its SBT-record
payload size. -/
structure SbtProgram where
  program : Program
  dataSize : Nat
  deriving DecidableEq, Repr

/-- Modelled from the spec: a geometry type declares the payload size of its SBT
records, per ray type up to three program slots, and an optional device-side
bounds program (with the size of the geometry data it reads). -/
structure GeomType where
  sizeOfSBTData : Nat
  intersect : List (Nat × Program)
  closestHit : List (Nat × Program)
  anyHit : List (Nat × Program)
  boundsProg : Option (Program × Nat)
  deriving DecidableEq, Repr

/-- A buffer bound to a triangle geometry with its count, stride and offset. -/
structure BufferBinding where
  bufferID : Int
  count : Nat
  stride : Nat
  offset : Nat
  deriving DecidableEq, Repr

/-- Modelled from the spec: the bounds source of a user geometry is a tagged
variant: a bounds buffer, the device bounds program, or a host callback. -/
inductive BoundsSource where
  | buffer (bufferID : Int)
  | deviceProgram
  | hostCallback
  deriving DecidableEq, Repr

/-- Modelled from the spec: a geometry is a triangle geometry (vertex buffer and
optional index buffer) or a user geometry (primitive count and at most one
bounds source). -/
inductive GeomData where
  | triangles (vertexBuffer : Option BufferBinding) (indexBuffer : Option BufferBinding)
  | user (numPrims : Nat) (boundsSource : Option BoundsSource)
  deriving DecidableEq, Repr

/-- Modelled from the spec: a geometry references exactly one geometry type. -/
structure Geom where
  geomTypeID : Int
  data : GeomData
  deriving DecidableEq, Repr

/-- The three kinds of group the header creates. -/
inductive GroupKind where
  | instanceGroup
  | trianglesGeomGroup
  | userGeomGroup
  deriving DecidableEq, Repr

/-- Modelled from the spec: the state machine of a group. -/
inductive GroupState where
  | Unbuilt
  | BoundsComputed
  | Built
  | Stale
  deriving DecidableEq, Repr

/-- Modelled from the spec: one entry of the backend's native instance array:
the transform in the backend's layout, the child it instantiates and the
traversable handle of that child on the device the array is built for. -/
structure OptixInstance where
  transform : Fin 12 → F32
  instanceId : Nat
  traversableHandle : Nat

/-- Modelled from the spec: a group is a bottom-level group (child geometry
IDs) or an instance group (child group IDs, each with its own transform, given
by the index of the child in the list); once built it holds one traversable
handle per device, an instance group also the instance array built for every
device. -/
structure Group where
  kind : GroupKind
  children : List Int
  transforms : Nat → Xfm
  state : GroupState
  traversables : List Nat
  instances : List (List OptixInstance)

/-- Modelled from the spec: the context: the devices of its replica set, the
ray-type count, the maximum instancing depth, the last error and one handle
table per resource kind. -/
structure Context where
  devices : List Int
  rayTypeCount : Nat
  maxInstancingDepth : Int
  lastError : Option LLOError
  buffers : HandleTable Buffer
  launchParams : HandleTable LaunchParams
  modules : HandleTable Module
  missProgs : HandleTable SbtProgram
  groups : HandleTable Group
  geoms : HandleTable Geom
  geomTypes : HandleTable GeomType
  rayGens : HandleTable SbtProgram

/-- Modelled from the spec: the excluded backend capability, as far as the
operations below call it: device enumeration, module compilation (the entry
points of a source text, or `none` when it does not compile) and the two
acceleration-structure build primitives, per device (the traversable handle,
or `none` when the build fails). -/
structure Backend where
  deviceCount : Nat
  compile : String → Option (List String)
  buildGeomAccel : Int → List Geom → Option Nat
  buildInstanceAccel : Int → List OptixInstance → Option Nat

/-- The number of devices of a context (`lloGetDeviceCount`). -/
def lloGetDeviceCount (llo : Context) : Int :=
  llo.devices.length

/-- A successful operation: `LLO_SUCCESS` and the new context. -/
def Context.succeed (llo : Context) : LLOResult × Context :=
  (.LLO_SUCCESS, llo)

/-- A failed operation: `LLO_UNKNOWN_ERROR`, and the context unchanged but for
the recorded last error. -/
def Context.fail (llo : Context) (e : LLOError) : LLOResult × Context :=
  (.LLO_UNKNOWN_ERROR, { llo with lastError := some e })

/-- Modelled from the spec: `lloContextCreate` (body missing): the context over
the given devices, an empty list standing for all available devices, with the
default maximum instancing depth 1, one ray type and empty handle tables; no
context is created without a device or for a device the backend does not
have. -/
def lloContextCreate (backend : Backend) (deviceIDs : List Int) : Option Context :=
  let devices : List Int :=
    if deviceIDs.isEmpty then (List.range backend.deviceCount).map Int.ofNat else deviceIDs
  if devices.isEmpty || devices.any (fun d => decide (d < 0) || decide ((backend.deviceCount : Int) ≤ d))
  then none
  else some
    { devices := devices, rayTypeCount := 1, maxInstancingDepth := 1, lastError := none,
      buffers := ⟨[]⟩, launchParams := ⟨[]⟩, modules := ⟨[]⟩, missProgs := ⟨[]⟩,
      groups := ⟨[]⟩, geoms := ⟨[]⟩, geomTypes := ⟨[]⟩, rayGens := ⟨[]⟩ }

/-- Modelled from the spec: `lloSetMaxInstancingDepth` (body missing) sets the
maximum instancing depth of the context. -/
def lloSetMaxInstancingDepth (llo : Context) (maxInstanceDepth : Int) : LLOResult × Context :=
  Context.succeed { llo with maxInstancingDepth := maxInstanceDepth }

/-- Modelled from the spec: `lloSetRayTypeCount` (body missing) sets the
ray-type count of the context. -/
def lloSetRayTypeCount (llo : Context) (rayTypeCount : Nat) : LLOResult × Context :=
  Context.succeed { llo with rayTypeCount := rayTypeCount }

/-- Modelled from the spec: `lloAllocBuffers` (body missing), `alloc` for buffers. -/
def lloAllocBuffers (llo : Context) (numBuffers : Int) : LLOResult × Context :=
  Context.succeed { llo with buffers := llo.buffers.alloc numBuffers }

/-- Modelled from the spec: `lloAllocLaunchParams` (body missing), `alloc` for
launch-params objects. -/
def lloAllocLaunchParams (llo : Context) (numLaunchParams : Int) : LLOResult × Context :=
  Context.succeed { llo with launchParams := llo.launchParams.alloc numLaunchParams }

/-- Modelled from the spec: `lloAllocModules` (body missing), `alloc` for modules. -/
def lloAllocModules (llo : Context) (numModules : Int) : LLOResult × Context :=
  Context.succeed { llo with modules := llo.modules.alloc numModules }

/-- Modelled from the spec: `lloAllocMissProgs` (body missing), `alloc` for miss
programs. -/
def lloAllocMissProgs (llo : Context) (numMissProgs : Int) : LLOResult × Context :=
  Context.succeed { llo with missProgs := llo.missProgs.alloc numMissProgs }

/-- Modelled from the spec: `lloAllocGroups` (body missing), `alloc` for groups. -/
def lloAllocGroups (llo : Context) (numGroups : Int) : LLOResult × Context :=
  Context.succeed { llo with groups := llo.groups.alloc numGroups }

/-- Modelled from the spec: `lloAllocGeoms` (body missing), `alloc` for
geometries. -/
def lloAllocGeoms (llo : Context) (numGeoms : Int) : LLOResult × Context :=
  Context.succeed { llo with geoms := llo.geoms.alloc numGeoms }

/-- Modelled from the spec: `lloAllocGeomTypes` (body missing), `alloc` for
geometry types. -/
def lloAllocGeomTypes (llo : Context) (numGeomTypes : Int) : LLOResult × Context :=
  Context.succeed { llo with geomTypes := llo.geomTypes.alloc numGeomTypes }

/-- Modelled from the spec: `lloAllocRayGens` (body missing), `alloc` for ray-gen
programs. -/
def lloAllocRayGens (llo : Context) (rayGenProgCount : Int) : LLOResult × Context :=
  Context.succeed { llo with rayGens := llo.rayGens.alloc rayGenProgCount }

/-- The resource kinds, one per `lloAlloc*` operation of the header. -/
inductive ResourceKind where
  | buffers
  | launchParams
  | modules
  | missProgs
  | groups
  | geoms
  | geomTypes
  | rayGens
  deriving DecidableEq, Repr

/-- The type of resource a kind's table holds. -/
def ResourceKind.Payload : ResourceKind → Type
  | .buffers => Buffer
  | .launchParams => LaunchParams
  | .modules => Module
  | .missProgs => SbtProgram
  | .groups => Group
  | .geoms => Geom
  | .geomTypes => GeomType
  | .rayGens => SbtProgram

/-- The handle table of a kind. -/
def Context.table (llo : Context) : (kind : ResourceKind) → HandleTable kind.Payload
  | .buffers => llo.buffers
  | .launchParams => llo.launchParams
  | .modules => llo.modules
  | .missProgs => llo.missProgs
  | .groups => llo.groups
  | .geoms => llo.geoms
  | .geomTypes => llo.geomTypes
  | .rayGens => llo.rayGens

/-- The spec's `alloc(kind, count)`: the kind's `lloAlloc*` operation. -/
def Context.alloc (llo : Context) (kind : ResourceKind) (count : Int) : LLOResult × Context :=
  match kind with
  | .buffers => lloAllocBuffers llo count
  | .launchParams => lloAllocLaunchParams llo count
  | .modules => lloAllocModules llo count
  | .missProgs => lloAllocMissProgs llo count
  | .groups => lloAllocGroups llo count
  | .geoms => lloAllocGeoms llo count
  | .geomTypes => lloAllocGeomTypes llo count
  | .rayGens => lloAllocRayGens llo count

/-- The spec's `get(kind, id)`: the lookup of an ID in the kind's table. -/
def Context.get (llo : Context) (kind : ResourceKind) (id : Int) :
    Except LLOError (Option kind.Payload) :=
  (llo.table kind).lookup id

/-- Modelled from the spec: a program is created by resolving an entry-point
name against a compiled module (the resolution inside the missing bodies of the
program-creating operations): the module is looked up as every resource is, a
module that is not compiled yet is a not-yet-created resource, an absent symbol
fails with ProgramNotFound. -/
def Context.resolveProgram (llo : Context) (moduleID : Int) (programName : String) :
    Except LLOError Program :=
  match llo.modules.get moduleID with
  | .error e => .error e
  | .ok m =>
    match m.entryPoints with
    | none => .error .UnknownResource
    | some names =>
      if names.contains programName then .ok ⟨moduleID, programName⟩
      else .error .ProgramNotFound

/-- Modelled from the spec: `lloModuleCreate` (body missing) stores the source
text in the module's slot without compiling it. -/
def lloModuleCreate (llo : Context) (moduleID : Int) (ptxCode : String) : LLOResult × Context :=
  if llo.modules.inRange moduleID then
    Context.succeed { llo with modules := llo.modules.set moduleID ⟨ptxCode, none⟩ }
  else llo.fail .InvalidHandle

/-- Compile the module of a slot if it is stored and not yet compiled. -/
def compileSlot (backend : Backend) : Slot Module → Slot Module
  | .created m =>
    match m.entryPoints with
    | some _ => .created m
    | none => .created { m with entryPoints := backend.compile m.ptxCode }
  | slot => slot

/-- Modelled from the spec: `lloBuildModules` (body missing) compiles every
stored, not-yet-compiled module; a module that fails to compile stays
uncompiled and is reported as CompilationFailure, the others are compiled. -/
def lloBuildModules (backend : Backend) (llo : Context) : LLOResult × Context :=
  let modules : HandleTable Module := ⟨llo.modules.slots.map (compileSlot backend)⟩
  let llo1 : Context := { llo with modules := modules }
  if modules.slots.any (fun slot =>
      match slot with
      | .created m => m.entryPoints.isNone
      | _ => false)
  then llo1.fail .CompilationFailure
  else llo1.succeed

/-- Modelled from the spec: `lloRayGenCreate` (body missing) creates the ray-gen
program of an ID from an entry point of a compiled module, with its SBT-record
payload size. -/
def lloRayGenCreate (llo : Context) (programID moduleID : Int) (programName : String)
    (dataSizeOfRayGen : Nat) : LLOResult × Context :=
  if llo.rayGens.inRange programID then
    match llo.resolveProgram moduleID programName with
    | .error e => llo.fail e
    | .ok prog =>
      Context.succeed { llo with rayGens := llo.rayGens.set programID ⟨prog, dataSizeOfRayGen⟩ }
  else llo.fail .InvalidHandle

/-- Modelled from the spec: `lloMissProgCreate` (body missing) creates the miss
program of an ID from an entry point of a compiled module, with its SBT-record
payload size. -/
def lloMissProgCreate (llo : Context) (programID moduleID : Int) (programName : String)
    (dataSizeOfMissProg : Nat) : LLOResult × Context :=
  if llo.missProgs.inRange programID then
    match llo.resolveProgram moduleID programName with
    | .error e => llo.fail e
    | .ok prog =>
      Context.succeed { llo with missProgs := llo.missProgs.set programID ⟨prog, dataSizeOfMissProg⟩ }
  else llo.fail .InvalidHandle

/-- Modelled from the spec: `lloLaunchParamsCreate` (body missing) creates the
launch-params object of an ID, sized from the declared struct size. -/
def lloLaunchParamsCreate (llo : Context) (launchParamsID : Int) (sizeOfVarsStruct : Nat) :
    LLOResult × Context :=
  if llo.launchParams.inRange launchParamsID then
    Context.succeed
      { llo with launchParams := llo.launchParams.set launchParamsID ⟨sizeOfVarsStruct⟩ }
  else llo.fail .InvalidHandle

/-- Create the buffer of an ID with a backing kind and a size. -/
def Context.bufferCreate (llo : Context) (kind : BufferKind) (bufferID : Int) (sizeInBytes : Nat) :
    LLOResult × Context :=
  if llo.buffers.inRange bufferID then
    Context.succeed { llo with buffers := llo.buffers.set bufferID ⟨kind, sizeInBytes⟩ }
  else llo.fail .InvalidHandle

/-- Modelled from the spec: `lloBufferDestroy` (body missing) destroys the
created buffer of an ID: its slot is unset from then on, until a new buffer is
created under the ID. -/
def lloBufferDestroy (llo : Context) (bufferID : Int) : LLOResult × Context :=
  match llo.buffers.get bufferID with
  | .error e => llo.fail e
  | .ok _ => Context.succeed { llo with buffers := llo.buffers.unset bufferID }

/-- Modelled from the spec: `lloDeviceBufferCreate` (body missing) creates a
buffer of which every device has its own copy; the contents are not tracked. -/
def lloDeviceBufferCreate (llo : Context) (bufferID : Int) (sizeInBytes : Nat) :
    LLOResult × Context :=
  llo.bufferCreate .deviceLocal bufferID sizeInBytes

/-- Modelled from the spec: `lloHostPinnedBufferCreate` (body missing) creates a
host-pinned buffer shared by all devices. -/
def lloHostPinnedBufferCreate (llo : Context) (bufferID : Int) (sizeInBytes : Nat) :
    LLOResult × Context :=
  llo.bufferCreate .hostPinned bufferID sizeInBytes

/-- Modelled from the spec: `lloManagedMemoryBufferCreate` (body missing) creates
a managed-memory buffer shared by all devices; the contents are not tracked. -/
def lloManagedMemoryBufferCreate (llo : Context) (bufferID : Int) (sizeInBytes : Nat) :
    LLOResult × Context :=
  llo.bufferCreate .managed bufferID sizeInBytes

/-- Modelled from the spec: `lloGeomTypeCreate` (body missing) creates the
geometry type of an ID with the payload size of its SBT records and no program
bound. -/
def lloGeomTypeCreate (llo : Context) (geomTypeID : Int) (sizeOfSBTData : Nat) :
    LLOResult × Context :=
  if llo.geomTypes.inRange geomTypeID then
    Context.succeed
      { llo with geomTypes := llo.geomTypes.set geomTypeID ⟨sizeOfSBTData, [], [], [], none⟩ }
  else llo.fail .InvalidHandle

/-- Bind a program to a ray type in a list of per-ray-type program slots,
replacing what was bound to that ray type. -/
def bindRayType (slots : List (Nat × Program)) (rayType : Nat) (prog : Program) :
    List (Nat × Program) :=
  (rayType, prog) :: slots.filter (fun b => b.1 != rayType)

/-- The three per-ray-type program slots of a geometry type. -/
inductive HitSlot where
  | intersect
  | closestHit
  | anyHit
  deriving DecidableEq, Repr

/-- Bind a program to one of the three slots of a geometry type at a ray type. -/
def GeomType.bind (gt : GeomType) (slot : HitSlot) (rayType : Nat) (prog : Program) : GeomType :=
  match slot with
  | .intersect => { gt with intersect := bindRayType gt.intersect rayType prog }
  | .closestHit => { gt with closestHit := bindRayType gt.closestHit rayType prog }
  | .anyHit => { gt with anyHit := bindRayType gt.anyHit rayType prog }

/-- Modelled from the spec: binding a program to `(geomType, rayType)` (the
missing body shared by `lloGeomTypeIntersect`, `lloGeomTypeClosestHit` and
`lloGeomTypeAnyHit`) requires a created geometry type and
`rayType < rayTypeCount`; an out-of-range ray type fails with InvalidRayType;
the program is then resolved in its module. -/
def Context.geomTypeBind (llo : Context) (slot : HitSlot) (geomTypeID rayTypeID moduleID : Int)
    (programName : String) : LLOResult × Context :=
  match llo.geomTypes.get geomTypeID with
  | .error e => llo.fail e
  | .ok gt =>
    if rayTypeID < 0 ∨ (llo.rayTypeCount : Int) ≤ rayTypeID then llo.fail .InvalidRayType
    else
      match llo.resolveProgram moduleID programName with
      | .error e => llo.fail e
      | .ok prog =>
        Context.succeed
          { llo with geomTypes := llo.geomTypes.set geomTypeID (gt.bind slot rayTypeID.toNat prog) }

/-- Modelled from the spec: `lloGeomTypeIntersect` (body missing). -/
def lloGeomTypeIntersect (llo : Context) (geomTypeID rayTypeID moduleID : Int)
    (programName : String) : LLOResult × Context :=
  llo.geomTypeBind .intersect geomTypeID rayTypeID moduleID programName

/-- Modelled from the spec: `lloGeomTypeClosestHit` (body missing). -/
def lloGeomTypeClosestHit (llo : Context) (geomTypeID rayTypeID moduleID : Int)
    (programName : String) : LLOResult × Context :=
  llo.geomTypeBind .closestHit geomTypeID rayTypeID moduleID programName

/-- Modelled from the spec: `lloGeomTypeAnyHit` (body missing). -/
def lloGeomTypeAnyHit (llo : Context) (geomTypeID rayTypeID moduleID : Int)
    (programName : String) : LLOResult × Context :=
  llo.geomTypeBind .anyHit geomTypeID rayTypeID moduleID programName

/-- Modelled from the spec: `lloTrianglesGeomCreate` (body missing) creates the
triangle geometry of an ID, referencing a created geometry type, with no buffer
bound yet. -/
def lloTrianglesGeomCreate (llo : Context) (geomID geomTypeID : Int) : LLOResult × Context :=
  if llo.geoms.inRange geomID then
    match llo.geomTypes.get geomTypeID with
    | .error e => llo.fail e
    | .ok _ =>
      Context.succeed
        { llo with geoms := llo.geoms.set geomID ⟨geomTypeID, .triangles none none⟩ }
  else llo.fail .InvalidHandle

/-- Modelled from the spec: `lloUserGeomCreate` (body missing) creates the user
geometry of an ID, referencing a created geometry type; its bounds source is the
device bounds program when its type declares one and is unset otherwise. -/
def lloUserGeomCreate (llo : Context) (geomID geomTypeID : Int) (numPrims : Nat) :
    LLOResult × Context :=
  if llo.geoms.inRange geomID then
    match llo.geomTypes.get geomTypeID with
    | .error e => llo.fail e
    | .ok gt =>
      Context.succeed
        { llo with geoms := llo.geoms.set geomID (Geom.mk geomTypeID
            (.user numPrims (if gt.boundsProg.isSome then some .deviceProgram else none))) }
  else llo.fail .InvalidHandle

/-- Modelled from the spec: `lloTrianglesGeomSetVertexBuffer` (body missing)
binds a created buffer as the vertex buffer of a triangle geometry. -/
def lloTrianglesGeomSetVertexBuffer (llo : Context) (geomID bufferID : Int)
    (count stride offset : Nat) : LLOResult × Context :=
  match llo.geoms.get geomID with
  | .error e => llo.fail e
  | .ok g =>
    match g.data with
    | .user _ _ => llo.fail .InvalidHandle
    | .triangles _ indexBuffer =>
      match llo.buffers.get bufferID with
      | .error e => llo.fail e
      | .ok _ =>
        Context.succeed
          { llo with geoms := llo.geoms.set geomID (Geom.mk g.geomTypeID
              (.triangles (some ⟨bufferID, count, stride, offset⟩) indexBuffer)) }

/-- Modelled from the spec: `lloTrianglesGeomSetIndexBuffer` (body missing) binds
a created buffer as the index buffer of a triangle geometry. -/
def lloTrianglesGeomSetIndexBuffer (llo : Context) (geomID bufferID : Int)
    (count stride offset : Nat) : LLOResult × Context :=
  match llo.geoms.get geomID with
  | .error e => llo.fail e
  | .ok g =>
    match g.data with
    | .user _ _ => llo.fail .InvalidHandle
    | .triangles vertexBuffer _ =>
      match llo.buffers.get bufferID with
      | .error e => llo.fail e
      | .ok _ =>
        Context.succeed
          { llo with geoms := llo.geoms.set geomID (Geom.mk g.geomTypeID
              (.triangles vertexBuffer (some ⟨bufferID, count, stride, offset⟩))) }

/-- Modelled from the spec: `lloUserGeomSetBoundsBuffer` (body missing) sets a
created buffer as the bounds source of a user geometry; when another bounds
source is already set it fails with ConflictingBoundsSource.  (The header: this
is one of three ways of specifying the bounds, the other two being the geometry
type's bounds function and a host callback; "only one of the three methods can
be set at any given time".) -/
def lloUserGeomSetBoundsBuffer (llo : Context) (geomID bufferID : Int) : LLOResult × Context :=
  match llo.geoms.get geomID with
  | .error e => llo.fail e
  | .ok g =>
    match g.data with
    | .triangles _ _ => llo.fail .InvalidHandle
    | .user numPrims source =>
      match llo.buffers.get bufferID with
      | .error e => llo.fail e
      | .ok _ =>
        match source with
        | some .deviceProgram => llo.fail .ConflictingBoundsSource
        | some .hostCallback => llo.fail .ConflictingBoundsSource
        | _ =>
          Context.succeed
            { llo with geoms := llo.geoms.set geomID (Geom.mk g.geomTypeID
                (.user numPrims (some (.buffer bufferID)))) }

/-- Whether a geometry slot holds a user geometry of the given type whose bounds
source is set to something other than the device bounds program. -/
def hasOtherBoundsSource (geomTypeID : Int) : Slot Geom → Bool
  | .created ⟨tid, .user _ (some (.buffer _))⟩ => tid == geomTypeID
  | .created ⟨tid, .user _ (some .hostCallback)⟩ => tid == geomTypeID
  | _ => false

/-- Make the device bounds program the bounds source of a slot's geometry when
it is a user geometry of the given type. -/
def useDeviceBounds (geomTypeID : Int) : Slot Geom → Slot Geom
  | .created ⟨tid, .user numPrims source⟩ =>
    if tid == geomTypeID then .created ⟨tid, .user numPrims (some .deviceProgram)⟩
    else .created ⟨tid, .user numPrims source⟩
  | slot => slot

/-- Modelled from the spec: `lloGeomTypeBoundsProgDevice` (body missing) sets the
device bounds program of a geometry type, which exists once per type and is the
bounds source of the user geometries of that type.  It is a second bounds source
for a user geometry of the type that already has another one set: the operation
then fails with ConflictingBoundsSource and changes nothing.  Otherwise the
program is resolved in its module and becomes the bounds source. -/
def lloGeomTypeBoundsProgDevice (llo : Context) (geomTypeID moduleID : Int)
    (programName : String) (geomDataSize : Nat) : LLOResult × Context :=
  match llo.geomTypes.get geomTypeID with
  | .error e => llo.fail e
  | .ok gt =>
    if llo.geoms.slots.any (hasOtherBoundsSource geomTypeID) then
      llo.fail .ConflictingBoundsSource
    else
      match llo.resolveProgram moduleID programName with
      | .error e => llo.fail e
      | .ok prog =>
        Context.succeed
          { llo with
              geomTypes := llo.geomTypes.set geomTypeID { gt with boundsProg := some (prog, geomDataSize) }
              geoms := ⟨llo.geoms.slots.map (useDeviceBounds geomTypeID)⟩ }

/-- The 32-bit pattern of `1.0f`. -/
def oneF32 : F32 := 0x3F800000

/-- The identity transform in the column-major layout of `affine3f`
(`vx, vy, vz, p`, three floats each). -/
def identityXfm : Xfm :=
  fun i => if i.val = 0 ∨ i.val = 4 ∨ i.val = 8 then oneF32 else 0

/-- A freshly created, unbuilt group. -/
def Group.create (kind : GroupKind) (children : List Int) : Group :=
  { kind := kind, children := children,
    transforms := fun _ => identityXfm,
    state := .Unbuilt, traversables := [], instances := [] }

/-- Create the group of an ID. -/
def Context.groupCreate (llo : Context) (kind : GroupKind) (groupID : Int) (children : List Int) :
    LLOResult × Context :=
  if llo.groups.inRange groupID then
    Context.succeed { llo with groups := llo.groups.set groupID (Group.create kind children) }
  else llo.fail .InvalidHandle

/-- Modelled from the spec: `lloInstanceGroupCreate` (body missing) creates an
instance group over an ordered list of child group IDs, each child with the
identity transform. -/
def lloInstanceGroupCreate (llo : Context) (groupID : Int) (childGroupIDs : List Int) :
    LLOResult × Context :=
  llo.groupCreate .instanceGroup groupID childGroupIDs

/-- Modelled from the spec: `lloTrianglesGeomGroupCreate` (body missing) creates a
bottom-level group over an ordered list of triangle geometry IDs. -/
def lloTrianglesGeomGroupCreate (llo : Context) (groupID : Int) (geomIDs : List Int) :
    LLOResult × Context :=
  llo.groupCreate .trianglesGeomGroup groupID geomIDs

/-- Modelled from the spec: `lloUserGeomGroupCreate` (body missing) creates a
bottom-level group over an ordered list of user geometry IDs. -/
def lloUserGeomGroupCreate (llo : Context) (groupID : Int) (geomIDs : List Int) :
    LLOResult × Context :=
  llo.groupCreate .userGeomGroup groupID geomIDs

/-- The group with the transform of its `k`-th child replaced; a built group
becomes stale. -/
def Group.withTransform (g : Group) (k : Nat) (xfm : Xfm) : Group :=
  { g with
      transforms := fun j => if j = k then xfm else g.transforms j
      state := match g.state with
        | .Built => .Stale
        | st => st }

/-- Modelled from the spec: `lloInstanceGroupSetTransform` (body missing) sets the
transform of the `childID`-th child of an instance group to the twelve floats
`xfm` points to; a built group becomes stale, nothing is rebuilt. -/
def lloInstanceGroupSetTransform (llo : Context) (groupID childID : Int) (xfm : Xfm) :
    LLOResult × Context :=
  match llo.groups.get groupID with
  | .error e => llo.fail e
  | .ok g =>
    match g.kind with
    | .instanceGroup =>
      if 0 ≤ childID ∧ childID < g.children.length then
        Context.succeed
          { llo with groups := llo.groups.set groupID (g.withTransform childID.toNat xfm) }
      else llo.fail .InvalidHandle
    | _ => llo.fail .InvalidHandle

/-- Whether a group has been built: it holds traversable handles, current
(`Built`) or outdated (`Stale`). -/
def Group.isBuilt (g : Group) : Bool :=
  match g.state with
  | .Built => true
  | .Stale => true
  | _ => false

/-- Look up a list of IDs, failing on the first ID whose lookup fails. -/
def HandleTable.getAll {α : Type} (t : HandleTable α) : List Int → Except LLOError (List α)
  | [] => .ok []
  | id :: ids =>
    match t.get id with
    | .error e => .error e
    | .ok r =>
      match HandleTable.getAll t ids with
      | .error e => .error e
      | .ok rs => .ok (r :: rs)

/-- Modelled from the spec: the depth of nested instance groups reachable from a
group: a bottom-level group (or an ID without a group) nests none, an instance group one
more than the deepest of its children.  The recursion follows child IDs and is
bounded by `fuel`. -/
def groupDepth (groups : HandleTable Group) : Nat → Int → Nat
  | 0, _ => 0
  | fuel + 1, groupID =>
    match groups.get groupID with
    | .error _ => 0
    | .ok g =>
      match g.kind with
      | .instanceGroup => 1 + (g.children.map (groupDepth groups fuel)).foldl max 0
      | _ => 0

/-- The instancing depth of a group in a context.  A hierarchy without a cycle
nests at most as many instance groups as the table has slots, so one more than
that is fuel enough. -/
def Context.instancingDepth (llo : Context) (groupID : Int) : Nat :=
  groupDepth llo.groups (llo.groups.size + 1) groupID

/-- Modelled from the spec: the instance array an instance group is flattened
into for the device of index `d`: one instance per child, in child order, with
the child's transform and the child's traversable handle on that device.  The
spec gives the backend's native instance-array layout as "column-major 4x3
affine, per child", which is the layout the header documents for the twelve
floats of `xfm`: the transform of an instance is the twelve floats of its
child, as they were set. -/
def instanceArray (g : Group) (childGroups : List Group) (d : Nat) : List OptixInstance :=
  (List.range g.children.length).map (fun k =>
    { transform := g.transforms k
      instanceId := k
      traversableHandle :=
        match childGroups[k]? with
        | some c => c.traversables.getD d 0
        | none => 0 })

/-- Modelled from the spec: the top-level build (the instance-group part of the
missing body of `lloGroupAccelBuild`): every child group must be created and
already built, the instancing depth must not exceed the configured maximum
(InstancingDepthExceeded otherwise), then the child list and transforms are
flattened into the instance array and the backend's top-level build is invoked
once per device; a failed backend build fails the operation. -/
def Context.buildInstanceGroup (backend : Backend) (llo : Context) (groupID : Int) (g : Group) :
    LLOResult × Context :=
  match llo.groups.getAll g.children with
  | .error e => llo.fail e
  | .ok childGroups =>
    if childGroups.any (fun c => !c.isBuilt) then llo.fail .UnknownResource
    else if llo.maxInstancingDepth < (llo.instancingDepth groupID : Int) then
      llo.fail .InstancingDepthExceeded
    else
      let handles := (List.range llo.devices.length).map (fun d =>
        backend.buildInstanceAccel (llo.devices.getD d 0) (instanceArray g childGroups d))
      if handles.all Option.isSome then
        let built : Group :=
          { kind := g.kind, children := g.children, transforms := g.transforms, state := .Built,
            traversables := handles.map (fun h => h.getD 0),
            instances := (List.range llo.devices.length).map (instanceArray g childGroups) }
        Context.succeed { llo with groups := llo.groups.set groupID built }
      else llo.fail .BackendFailure

/-- Whether a geometry is of the kind a bottom-level group holds. -/
def Geom.fits (kind : GroupKind) (g : Geom) : Bool :=
  match kind, g.data with
  | .trianglesGeomGroup, .triangles _ _ => true
  | .userGeomGroup, .user _ _ => true
  | _, _ => false

/-- Modelled from the spec: the bottom-level build (the geometry-group part of
the missing body of `lloGroupAccelBuild`): every child geometry must be created
and of the group's kind; a triangle geometry needs its vertex buffer (the
precondition violation is reported as a failed backend build), a user geometry
its bounds source; then the backend's accel build is invoked once per device. -/
def Context.buildGeomGroup (backend : Backend) (llo : Context) (groupID : Int) (g : Group) :
    LLOResult × Context :=
  match llo.geoms.getAll g.children with
  | .error e => llo.fail e
  | .ok geoms =>
    if geoms.any (fun c => !c.fits g.kind) then llo.fail .InvalidHandle
    else if geoms.any (fun c =>
        match c.data with
        | .user _ none => true
        | _ => false) then llo.fail .UnknownResource
    else if geoms.any (fun c =>
        match c.data with
        | .triangles none _ => true
        | _ => false) then llo.fail .BackendFailure
    else
      let handles := (List.range llo.devices.length).map (fun d =>
        backend.buildGeomAccel (llo.devices.getD d 0) geoms)
      if handles.all Option.isSome then
        let built : Group :=
          { kind := g.kind, children := g.children, transforms := g.transforms, state := .Built,
            traversables := handles.map (fun h => h.getD 0), instances := [] }
        Context.succeed { llo with groups := llo.groups.set groupID built }
      else llo.fail .BackendFailure

/-- Modelled from the spec: `lloGroupAccelBuild` (body missing) builds the group
of an ID: the top-level build for an instance group, the bottom-level build
otherwise. -/
def lloGroupAccelBuild (backend : Backend) (llo : Context) (groupID : Int) :
    LLOResult × Context :=
  match llo.groups.get groupID with
  | .error e => llo.fail e
  | .ok g =>
    match g.kind with
    | .instanceGroup => llo.buildInstanceGroup backend groupID g
    | _ => llo.buildGeomGroup backend groupID g

/-- The child geometry IDs a slot of the group table contributes to the hit
records: those of a built bottom-level group, in the order of its child list. -/
def builtGeomChildren : Slot Group → List Int
  | .created g =>
    match g.kind with
    | .instanceGroup => []
    | _ => if g.isBuilt then g.children else []
  | _ => []

/-- The child lists of the built bottom-level groups, one after the other, the
groups in ID order. -/
def Context.builtChildLists (llo : Context) : List Int :=
  (llo.groups.slots.map builtGeomChildren).flatten

/-- The IDs of a list, each once, in the order in which the list first names
them. -/
def firstOccurrences : List Int → List Int
  | [] => []
  | a :: l => a :: (firstOccurrences l).filter (fun b => b != a)

/-- Modelled from the spec: the geometries present in the built groups, each
once (the record array has "one" record "per (geometry, ray type) pair across
every geometry present in every built group"), in the order of the child lists
of the built bottom-level groups, the groups in ID order; a geometry that is
listed more than once stands where it is listed first. -/
def Context.builtGeomIDs (llo : Context) : List Int :=
  firstOccurrences llo.builtChildLists

/-- Modelled from the spec: the hit records of one device: one per (geometry,
ray type) pair across every geometry present in every built group, the
geometries in the order of the child lists, the ray type innermost. -/
def Context.hitRecords (llo : Context) : List (Int × Int) :=
  llo.builtGeomIDs.flatMap (fun geomID =>
    (List.range llo.rayTypeCount).map (fun (rayType : Nat) => (geomID, Int.ofNat rayType)))

/-- Modelled from the spec: the callback invocations of the hit-record build, in
order: for every device (by index in the device list), for every hit record of
that device, the view of the record's slot (its index in the device's record
array), the device ID, the geometry ID and the ray type. -/
def Context.hitProgCalls (llo : Context) : List (BytePtr × Int × Int × Int) :=
  (List.range llo.devices.length).flatMap (fun d =>
    (List.range llo.hitRecords.length).zipWith
      (fun slot rec => (slot, Int.ofNat d, rec.1, rec.2)) llo.hitRecords)

/-- Modelled from the spec: `lloSbtHitProgsBuild` (body missing) allocates one
hit record per slot and invokes the caller's record-population callback once per
slot, passing the view, the device ID, the geometry ID and the ray type, and the
user data it was handed. -/
def lloSbtHitProgsBuild {σ : Type} (llo : Context) (writeHitProgDataCB : LLOWriteHitProgDataCB σ)
    (callBackData : VoidPtr) (s : σ) : LLOResult × σ :=
  (.LLO_SUCCESS,
    llo.hitProgCalls.foldl (fun t c => writeHitProgDataCB c.1 c.2.1 c.2.2.1 c.2.2.2 callBackData t) s)

/-- The context-changing operations as data, so that a history of calls is a
list. -/
inductive Op where
  | setMaxInstancingDepth (maxInstanceDepth : Int)
  | setRayTypeCount (rayTypeCount : Nat)
  | alloc (kind : ResourceKind) (count : Int)
  | moduleCreate (moduleID : Int) (ptxCode : String)
  | buildModules
  | rayGenCreate (programID moduleID : Int) (programName : String) (dataSize : Nat)
  | missProgCreate (programID moduleID : Int) (programName : String) (dataSize : Nat)
  | launchParamsCreate (launchParamsID : Int) (sizeOfVarsStruct : Nat)
  | bufferCreate (kind : BufferKind) (bufferID : Int) (sizeInBytes : Nat)
  | bufferDestroy (bufferID : Int)
  | geomTypeCreate (geomTypeID : Int) (sizeOfSBTData : Nat)
  | geomTypeBind (slot : HitSlot) (geomTypeID rayTypeID moduleID : Int) (programName : String)
  | geomTypeBoundsProgDevice (geomTypeID moduleID : Int) (programName : String) (geomDataSize : Nat)
  | trianglesGeomCreate (geomID geomTypeID : Int)
  | userGeomCreate (geomID geomTypeID : Int) (numPrims : Nat)
  | trianglesGeomSetVertexBuffer (geomID bufferID : Int) (count stride offset : Nat)
  | trianglesGeomSetIndexBuffer (geomID bufferID : Int) (count stride offset : Nat)
  | userGeomSetBoundsBuffer (geomID bufferID : Int)
  | groupCreate (kind : GroupKind) (groupID : Int) (children : List Int)
  | instanceGroupSetTransform (groupID childID : Int) (xfm : Xfm)
  | groupAccelBuild (groupID : Int)

/-- Whether an operation is a call of `lloSetMaxInstancingDepth`. -/
def Op.setsMaxInstancingDepth : Op → Bool
  | .setMaxInstancingDepth _ => true
  | _ => false

/-- One call: the result code handed to the caller and the context after it. -/
def step (backend : Backend) (llo : Context) : Op → LLOResult × Context
  | .setMaxInstancingDepth d => lloSetMaxInstancingDepth llo d
  | .setRayTypeCount n => lloSetRayTypeCount llo n
  | .alloc kind count => llo.alloc kind count
  | .moduleCreate moduleID ptxCode => lloModuleCreate llo moduleID ptxCode
  | .buildModules => lloBuildModules backend llo
  | .rayGenCreate programID moduleID name size => lloRayGenCreate llo programID moduleID name size
  | .missProgCreate programID moduleID name size => lloMissProgCreate llo programID moduleID name size
  | .launchParamsCreate id size => lloLaunchParamsCreate llo id size
  | .bufferCreate kind bufferID size => llo.bufferCreate kind bufferID size
  | .bufferDestroy bufferID => lloBufferDestroy llo bufferID
  | .geomTypeCreate geomTypeID size => lloGeomTypeCreate llo geomTypeID size
  | .geomTypeBind slot geomTypeID rayTypeID moduleID name =>
    llo.geomTypeBind slot geomTypeID rayTypeID moduleID name
  | .geomTypeBoundsProgDevice geomTypeID moduleID name size =>
    lloGeomTypeBoundsProgDevice llo geomTypeID moduleID name size
  | .trianglesGeomCreate geomID geomTypeID => lloTrianglesGeomCreate llo geomID geomTypeID
  | .userGeomCreate geomID geomTypeID numPrims => lloUserGeomCreate llo geomID geomTypeID numPrims
  | .trianglesGeomSetVertexBuffer geomID bufferID count stride offset =>
    lloTrianglesGeomSetVertexBuffer llo geomID bufferID count stride offset
  | .trianglesGeomSetIndexBuffer geomID bufferID count stride offset =>
    lloTrianglesGeomSetIndexBuffer llo geomID bufferID count stride offset
  | .userGeomSetBoundsBuffer geomID bufferID => lloUserGeomSetBoundsBuffer llo geomID bufferID
  | .groupCreate kind groupID children => llo.groupCreate kind groupID children
  | .instanceGroupSetTransform groupID childID xfm =>
    lloInstanceGroupSetTransform llo groupID childID xfm
  | .groupAccelBuild groupID => lloGroupAccelBuild backend llo groupID

/-- The context after a history of calls. -/
def run (backend : Backend) (llo : Context) (ops : List Op) : Context :=
  ops.foldl (fun c op => (step backend c op).2) llo

/-- A backend with two devices, whose compiler finds the entry points `rg`, `ch`
and `bounds` in every source text and whose builds succeed. -/
def demoBackend : Backend :=
  { deviceCount := 2
    compile := fun _ => some ["rg", "ch", "bounds"]
    buildGeomAccel := fun d geoms => some (100 + 10 * d.toNat + geoms.length)
    buildInstanceAccel := fun d instances => some (200 + 10 * d.toNat + instances.length) }

/-- A context over two devices, as `lloContextCreate` creates it. -/
def demoContext : Context :=
  { devices := [0, 1], rayTypeCount := 1, maxInstancingDepth := 1, lastError := none,
    buffers := ⟨[]⟩, launchParams := ⟨[]⟩, modules := ⟨[]⟩, missProgs := ⟨[]⟩,
    groups := ⟨[]⟩, geoms := ⟨[]⟩, geomTypes := ⟨[]⟩, rayGens := ⟨[]⟩ }

/-! ## `common/parallel/parallel_for.h`

A task function runs for its effect, so it is a function from the index to a
transformer of a state type `σ`.  Indices are natural numbers. -/

namespace common

/-- The loop of `serial_for`:
`for (INDEX_T taskIndex = 0; taskIndex < nTasks; ++taskIndex) taskFunction(taskIndex);`
from the current value of `taskIndex`. -/
def serial_for.loop {σ : Type} (nTasks : Nat) (taskFunction : Nat → σ → σ)
    (taskIndex : Nat) (s : σ) : σ :=
  if taskIndex < nTasks then
    serial_for.loop nTasks taskFunction (taskIndex + 1) (taskFunction taskIndex s)
  else s
termination_by nTasks - taskIndex

/-- The function `serial_for(nTasks, taskFunction)`. -/
def serial_for {σ : Type} (nTasks : Nat) (taskFunction : Nat → σ → σ) (s : σ) : σ :=
  serial_for.loop nTasks taskFunction 0 s

/-- The external `tbb::parallel_for(first, last, f)`, which runs `f` on every index
of `[first, last)`, on whatever threads and in whatever order its scheduler
picks.  The order in which the scheduler starts the calls is the parameter
`schedule`; calls are taken as atomic. -/
def tbb_parallel_for {σ : Type} (schedule : Nat → Nat → List Nat)
    (first last : Nat) (f : Nat → σ → σ) (s : σ) : σ :=
  (schedule first last).foldl (fun t i => f i t) s

/-- The function `parallel_for(nTasks, taskFunction)`, in both variants: with TBB
(`OWL_HAVE_TBB`) nothing for no task, a direct call for a single task and
`tbb::parallel_for` otherwise; without TBB `serial_for`. -/
def parallel_for {σ : Type} (OWL_HAVE_TBB : Bool) (schedule : Nat → Nat → List Nat)
    (nTasks : Nat) (taskFunction : Nat → σ → σ) (s : σ) : σ :=
  if OWL_HAVE_TBB then
    if nTasks = 0 then s
    else if nTasks = 1 then taskFunction 0 s
    else tbb_parallel_for schedule 0 nTasks taskFunction s
  else serial_for nTasks taskFunction s

/-- A task function that only records the index it is called with. -/
def recordIndex : Nat → List Nat → List Nat :=
  fun i log => log ++ [i]

/-- The largest value of the 64-bit `size_t`. -/
def SIZE_MAX : Nat := 2 ^ 64 - 1

/-- The value of a `size_t` expression: unsigned arithmetic is modulo `2^64`. -/
def size_t (x : Nat) : Nat := x % 2 ^ 64

/-- The `size_t` difference `a - b`, modulo `2^64`. -/
def size_t.sub (a b : Nat) : Nat := (size_t a + 2 ^ 64 - size_t b) % 2 ^ 64

/-- The loop of `serial_for_blocked`:
`for (size_t block_begin=begin; block_begin < end; block_begin += blockSize)
   taskFunction(block_begin,std::min(block_begin+blockSize,end));`
from the current value of `block_begin`.  With wrapping arithmetic the loop need
not end, so it is run for at most `fuel` tests of its condition; `none` means it
had not ended by then. -/
def serial_for_blocked.loop {σ : Type} (end_ blockSize : Nat) (taskFunction : Nat → Nat → σ → σ) :
    Nat → Nat → σ → Option σ
  | 0, _, _ => none
  | fuel + 1, block_begin, s =>
    if block_begin < end_ then
      serial_for_blocked.loop end_ blockSize taskFunction fuel (size_t (block_begin + blockSize))
        (taskFunction block_begin (min (size_t (block_begin + blockSize)) end_) s)
    else some s

/-- The function `serial_for_blocked(begin, end, blockSize, taskFunction)`, run for
at most `fuel` tests of the loop condition. -/
def serial_for_blocked {σ : Type} (fuel : Nat) (begin end_ blockSize : Nat)
    (taskFunction : Nat → Nat → σ → σ) (s : σ) : Option σ :=
  serial_for_blocked.loop end_ blockSize taskFunction fuel begin s

/-- The constant `numBlocks` of `parallel_for_blocked`:
`numTasks = end-begin; numBlocks = (numTasks+blockSize-1)/blockSize`, in `size_t`
arithmetic. -/
def parallel_for_blocked.numBlocks (begin end_ blockSize : Nat) : Nat :=
  let numTasks := size_t.sub end_ begin
  size_t.sub (size_t (numTasks + blockSize)) 1 / blockSize

/-- The block the lambda of `parallel_for_blocked` passes on for a block ID:
`block_begin = begin+blockID*blockSize` and `std::min(block_begin+blockSize,end)`,
in `size_t` arithmetic. -/
def parallel_for_blocked.block (begin end_ blockSize blockID : Nat) : Nat × Nat :=
  let block_begin := size_t (begin + size_t (blockID * blockSize))
  (block_begin, min (size_t (block_begin + blockSize)) end_)

/-- The function `parallel_for_blocked(begin, end, blockSize, taskFunction)` (its
enabled `#else` branch; the disabled `#if 0` branch is the call
`serial_for_blocked(begin,end,blockSize,taskFunction)`): `parallel_for` over the
block IDs.  The division by a zero `blockSize` is undefined: `none`. -/
def parallel_for_blocked {σ : Type} (OWL_HAVE_TBB : Bool) (schedule : Nat → Nat → List Nat)
    (begin end_ blockSize : Nat) (taskFunction : Nat → Nat → σ → σ) (s : σ) : Option σ :=
  if blockSize = 0 then none
  else
    some (parallel_for OWL_HAVE_TBB schedule (parallel_for_blocked.numBlocks begin end_ blockSize)
      (fun blockID =>
        taskFunction (parallel_for_blocked.block begin end_ blockSize blockID).1
          (parallel_for_blocked.block begin end_ blockSize blockID).2) s)

/-- A blocked task function that only records the block it is called with. -/
def recordBlock : Nat → Nat → List (Nat × Nat) → List (Nat × Nat) :=
  fun block_begin block_end log => log ++ [(block_begin, block_end)]

/-- The number of blocks of a range as the properties state it:
`ceil((end - begin) / blockSize)`, in exact arithmetic (0 when `end <= begin`). -/
def ceilBlocks (begin end_ blockSize : Nat) : Nat :=
  (end_ - begin + blockSize - 1) / blockSize

/-- The blocks of a range as the properties state them, in exact arithmetic:
block `k` of `ceil((end - begin) / blockSize)` is
`(begin + k*blockSize, min(begin + (k+1)*blockSize, end))`. -/
def blocksOfRange (begin end_ blockSize : Nat) : List (Nat × Nat) :=
  (List.range (ceilBlocks begin end_ blockSize)).map (fun k =>
    (begin + k * blockSize, min (begin + (k + 1) * blockSize) end_))

end common

/-- A history that compiles one module, sets the ray-type count to 2 and creates
geometry type 0. -/
def rayTypeOps : List Op :=
  [ .alloc .modules 1, .moduleCreate 0 "ptx", .buildModules, .setRayTypeCount 2,
    .alloc .geomTypes 1, .geomTypeCreate 0 16 ]

/-- A history that builds a bottom-level group 0 over one triangle geometry, an
instance group 1 over group 0 with the transform of its child set to the floats
`0, 1, ..., 11`, and creates an instance group 2 over group 1. -/
def nestedOps : List Op :=
  [ .alloc .geomTypes 1, .geomTypeCreate 0 16,
    .alloc .buffers 1, .bufferCreate .deviceLocal 0 36,
    .alloc .geoms 1, .trianglesGeomCreate 0 0, .trianglesGeomSetVertexBuffer 0 0 3 12 0,
    .alloc .groups 3, .groupCreate .trianglesGeomGroup 0 [0], .groupAccelBuild 0,
    .groupCreate .instanceGroup 1 [0], .instanceGroupSetTransform 1 0 (fun i => i.val),
    .groupAccelBuild 1, .groupCreate .instanceGroup 2 [1] ]

/-- A history that builds a bottom-level group 0 over one triangle geometry and
creates an instance group 1 that instantiates group 0 twice. -/
def twoInstancesOps : List Op :=
  [ .alloc .geomTypes 1, .geomTypeCreate 0 16,
    .alloc .buffers 1, .bufferCreate .deviceLocal 0 36,
    .alloc .geoms 1, .trianglesGeomCreate 0 0, .trianglesGeomSetVertexBuffer 0 0 3 12 0,
    .alloc .groups 2, .groupCreate .trianglesGeomGroup 0 [0], .groupAccelBuild 0,
    .groupCreate .instanceGroup 1 [0, 0] ]

/-- A sequence of `lloInstanceGroupSetTransform` calls on one instance group as
a history: one call per pair of a child ID and its twelve floats, in order. -/
def setTransformOps (groupID : Int) (sets : List (Int × Xfm)) : List Op :=
  sets.map (fun p => Op.instanceGroupSetTransform groupID p.1 p.2)

/-- The per-child transforms a group holds after a sequence of sets, each of
which replaces the transform of its child and of no other. -/
def transformsAfter (transforms : Nat → Xfm) (sets : List (Int × Xfm)) : Nat → Xfm :=
  sets.foldl (fun t p => fun j => if j = p.1.toNat then p.2 else t j) transforms

/-- Three sets on an instance group with two children: the floats `0, ..., 11`
for child 0, the floats `100, ..., 111` for child 1, and then the floats
`50, ..., 61` for child 0 again. -/
def demoSets : List (Int × Xfm) :=
  [(0, fun i => i.val), (1, fun i => 100 + i.val), (0, fun i => 50 + i.val)]

/-- The group stored under an ID, or a fresh empty instance group when the
lookup fails. -/
def Context.groupOf (llo : Context) (groupID : Int) : Group :=
  match llo.groups.get groupID with
  | .ok g => g
  | .error _ => Group.create .instanceGroup []

/-- A history that compiles one module and creates geometry type 0, buffer 0 and
the user geometry 0 of type 0 with 10 primitives. -/
def userGeomOps : List Op :=
  [ .alloc .modules 1, .moduleCreate 0 "ptx", .buildModules,
    .alloc .geomTypes 1, .geomTypeCreate 0 16,
    .alloc .buffers 1, .bufferCreate .deviceLocal 0 240,
    .alloc .geoms 1, .userGeomCreate 0 0 10 ]

/-- The consistency of bounds sources: a user geometry whose geometry type
declares a device bounds program has that program as its bounds source, and so
neither a bounds buffer nor a host callback beside it. -/
def Context.oneBoundsSource (llo : Context) : Prop :=
  ∀ (geomID tid : Int) (numPrims : Nat) (source : Option BoundsSource) (gt : GeomType),
    llo.geoms.get geomID = Except.ok ⟨tid, .user numPrims source⟩ →
    llo.geomTypes.get tid = Except.ok gt →
    gt.boundsProg.isSome = true →
    source = some .deviceProgram

/-- The kind and ID of the slot an operation creates a resource in, for the
create operations. -/
def Op.creates : Op → Option (ResourceKind × Int)
  | .moduleCreate moduleID _ => some (.modules, moduleID)
  | .rayGenCreate programID _ _ _ => some (.rayGens, programID)
  | .missProgCreate programID _ _ _ => some (.missProgs, programID)
  | .launchParamsCreate launchParamsID _ => some (.launchParams, launchParamsID)
  | .bufferCreate _ bufferID _ => some (.buffers, bufferID)
  | .geomTypeCreate geomTypeID _ => some (.geomTypes, geomTypeID)
  | .trianglesGeomCreate geomID _ => some (.geoms, geomID)
  | .userGeomCreate geomID _ _ => some (.geoms, geomID)
  | .groupCreate _ groupID _ => some (.groups, groupID)
  | _ => none

/-- Whether an operation leaves the reserved IDs of a kind alone: it is neither
the kind's `alloc`, which replaces the table, nor, for buffers, a destroy, which
unsets a slot. -/
def Op.keepsIDs (kind : ResourceKind) : Op → Bool
  | .alloc k _ => k != kind
  | .bufferDestroy _ => kind != .buffers
  | _ => true

/-- A later state `t1` of a table keeps the reserved IDs of `t`: it has the same
size and, when no slot of `t` is unset, no unset slot. -/
def HandleTable.KeepsIDs {α : Type} (t t1 : HandleTable α) : Prop :=
  t1.size = t.size ∧ (Slot.unset ∉ t.slots → Slot.unset ∉ t1.slots)

/-- A history after the modules are allocated: it creates and compiles module 0
and allocates, creates and destroys a buffer. -/
def moduleOps : List Op :=
  [ .moduleCreate 0 "ptx", .buildModules, .alloc .buffers 1, .bufferCreate .managed 0 8,
    .bufferDestroy 0 ]

/-! ## Theorems -/

/-! ### Handle tables -/

/-- The resource of an ID, by the cases of its slot. -/
theorem HandleTable.get_eq {α : Type} (t : HandleTable α) (id : Int) :
    t.get id =
      if id < 0 then .error .InvalidHandle
      else
        match t.slots[id.toNat]? with
        | some (.created r) => .ok r
        | some .reserved => .error .UnknownResource
        | _ => .error .InvalidHandle := by
  unfold HandleTable.get HandleTable.lookup
  by_cases h0 : id < 0
  · simp [h0]
  · simp only [h0, if_false]
    cases hs : t.slots[id.toNat]? with
    | none => rfl
    | some slot => cases slot <;> rfl

/-- A freshly allocated table reserves `count` IDs. -/
theorem HandleTable.size_alloc {α : Type} (t : HandleTable α) (count : Int) :
    (t.alloc count).size = count.toNat := by
  simp [HandleTable.size, HandleTable.alloc]

/-- The lookup in a freshly allocated table succeeds exactly on the reserved IDs,
none of which holds a resource yet. -/
theorem HandleTable.lookup_alloc {α : Type} (t : HandleTable α) (count id : Int) :
    (t.alloc count).lookup id =
      if 0 ≤ id ∧ id < count then .ok none else .error .InvalidHandle := by
  unfold HandleTable.lookup HandleTable.alloc
  by_cases h0 : id < 0
  · have : ¬ (0 ≤ id ∧ id < count) := by omega
    simp [h0, this]
  · simp only [h0, if_false, List.getElem?_replicate]
    by_cases h1 : id < count
    · have h2 : id.toNat < count.toNat := by omega
      have h3 : 0 ≤ id ∧ id < count := by omega
      simp [h2, h3]
    · have h2 : ¬ id.toNat < count.toNat := by omega
      have h3 : ¬ (0 ≤ id ∧ id < count) := by omega
      simp [h2, h3]

/-- No resource is created in a freshly allocated table. -/
theorem HandleTable.get_alloc {α : Type} (t : HandleTable α) (count id : Int) :
    (t.alloc count).get id =
      .error (if 0 ≤ id ∧ id < count then .UnknownResource else .InvalidHandle) := by
  unfold HandleTable.get
  rw [HandleTable.lookup_alloc]
  split_ifs <;> rfl

/-- The lookup of an ID out of range fails with InvalidHandle. -/
theorem HandleTable.lookup_of_not_inRange {α : Type} (t : HandleTable α) (id : Int)
    (h : t.inRange id = false) : t.lookup id = .error .InvalidHandle := by
  unfold HandleTable.lookup
  split
  · rfl
  · rename_i hid
    have h1 : ¬ id < (t.size : Int) := by
      simpa [HandleTable.inRange, not_lt.mp hid] using h
    have h2 : t.slots.length ≤ id.toNat := by
      unfold HandleTable.size at h1
      omega
    rw [List.getElem?_eq_none h2]

/-- No resource is found under an ID out of range: InvalidHandle. -/
theorem HandleTable.get_of_not_inRange {α : Type} (t : HandleTable α) (id : Int)
    (h : t.inRange id = false) : t.get id = .error .InvalidHandle := by
  unfold HandleTable.get
  rw [HandleTable.lookup_of_not_inRange t id h]

/-- The resource of an ID in range is found once it is stored in its slot. -/
theorem HandleTable.get_set_self {α : Type} (t : HandleTable α) (id : Int) (r : α)
    (h : t.inRange id = true) : (t.set id r).get id = .ok r := by
  have h0 : 0 ≤ id ∧ id < (t.size : Int) := by
    simpa [HandleTable.inRange] using h
  have h2 : id.toNat < t.slots.length := by
    unfold HandleTable.size at h0
    omega
  rw [HandleTable.get_eq]
  unfold HandleTable.set
  rw [if_neg (not_lt.mpr h0.1), if_neg (not_lt.mpr h0.1)]
  simp [List.getElem?_set_self, h2]

/-- The lookup of an ID in range hands out the resource stored in its slot. -/
theorem HandleTable.lookup_set_self {α : Type} (t : HandleTable α) (id : Int) (r : α)
    (h : t.inRange id = true) : (t.set id r).lookup id = .ok (some r) := by
  have h0 : 0 ≤ id ∧ id < (t.size : Int) := by
    simpa [HandleTable.inRange] using h
  have h2 : id.toNat < t.slots.length := by
    unfold HandleTable.size at h0
    omega
  unfold HandleTable.lookup HandleTable.set
  rw [if_neg (not_lt.mpr h0.1), if_neg (not_lt.mpr h0.1)]
  simp [List.getElem?_set_self, h2]

/-- Storing a resource does not change the lookup of another ID. -/
theorem HandleTable.lookup_set_ne {α : Type} (t : HandleTable α) (id other : Int) (r : α)
    (h : other ≠ id) : (t.set id r).lookup other = t.lookup other := by
  unfold HandleTable.lookup HandleTable.set
  by_cases h1 : other < 0
  · simp [h1]
  · by_cases h2 : id < 0
    · simp [h1, h2]
    · have : id.toNat ≠ other.toNat := by omega
      simp [h1, h2, List.getElem?_set_ne this]

/-- Storing a resource does not change the resource of another ID. -/
theorem HandleTable.get_set_ne {α : Type} (t : HandleTable α) (id other : Int) (r : α)
    (h : other ≠ id) : (t.set id r).get other = t.get other := by
  unfold HandleTable.get
  rw [HandleTable.lookup_set_ne t id other r h]

/-- Storing a resource does not change the size of a table. -/
theorem HandleTable.size_set {α : Type} (t : HandleTable α) (id : Int) (r : α) :
    (t.set id r).size = t.size := by
  unfold HandleTable.set HandleTable.size
  split <;> simp

/-- Storing a resource does not change the range of a table. -/
theorem HandleTable.inRange_set {α : Type} (t : HandleTable α) (id other : Int) (r : α) :
    (t.set id r).inRange other = t.inRange other := by
  simp [HandleTable.inRange, HandleTable.size_set]

/-- A found resource is held by a slot of the table, under an ID in range. -/
theorem HandleTable.of_get {α : Type} (t : HandleTable α) (id : Int) (r : α)
    (h : t.get id = Except.ok r) : t.inRange id = true ∧ Slot.created r ∈ t.slots := by
  rw [HandleTable.get_eq] at h
  by_cases h0 : id < 0
  · simp [h0] at h
  · simp only [h0, if_false] at h
    cases hs : t.slots[id.toNat]? with
    | none => simp [hs] at h
    | some slot =>
      cases slot with
      | unset => simp [hs] at h
      | reserved => simp [hs] at h
      | created r1 =>
        simp only [hs] at h
        have hr : r1 = r := by injection h
        subst hr
        obtain ⟨hlt, hget⟩ := List.getElem?_eq_some_iff.mp hs
        refine ⟨?_, ?_⟩
        · simp only [HandleTable.inRange, HandleTable.size, Bool.and_eq_true, decide_eq_true_eq]
          omega
        · rw [← hget]
          exact List.getElem_mem hlt

/-- A resource found after storing one is the new resource or what was there
before. -/
theorem HandleTable.get_set_cases {α : Type} (t : HandleTable α) (id other : Int) (r x : α)
    (h : (t.set id r).get other = Except.ok x) :
    (other = id ∧ x = r) ∨ (other ≠ id ∧ t.get other = Except.ok x) := by
  by_cases hid : other = id
  · subst hid
    left
    refine ⟨rfl, ?_⟩
    cases hr : t.inRange other with
    | true =>
      rw [HandleTable.get_set_self _ _ _ hr] at h
      injection h with h
      exact h.symm
    | false =>
      rw [HandleTable.get_of_not_inRange _ _ (by rw [HandleTable.inRange_set]; exact hr)] at h
      cases h
  · right
    rw [HandleTable.get_set_ne _ _ _ _ hid] at h
    exact ⟨hid, h⟩

/-- A resource found in a table whose slots were mapped comes from a slot of the
table. -/
theorem HandleTable.get_map {α : Type} (t : HandleTable α) (f : Slot α → Slot α)
    (id : Int) (x : α) (h : (HandleTable.mk (t.slots.map f)).get id = Except.ok x) :
    ∃ slot, t.slots[id.toNat]? = some slot ∧ f slot = Slot.created x ∧ ¬ id < 0 := by
  rw [HandleTable.get_eq] at h
  by_cases h0 : id < 0
  · simp [h0] at h
  · simp only [h0, if_false, List.getElem?_map] at h
    cases hs : t.slots[id.toNat]? with
    | none => simp [hs] at h
    | some slot =>
      simp only [hs, Option.map_some'] at h
      cases hf : f slot with
      | unset => simp [hf] at h
      | reserved => simp [hf] at h
      | created y =>
        simp only [hf] at h
        injection h with h
        exact ⟨slot, rfl, by rw [hf, h], h0⟩

/-- The table of a kind after the kind's `alloc`. -/
theorem Context.table_alloc (llo : Context) (kind : ResourceKind) (count : Int) :
    (llo.alloc kind count).1 = LLOResult.LLO_SUCCESS ∧
    (llo.alloc kind count).2.table kind = (llo.table kind).alloc count := by
  cases kind <;> exact ⟨rfl, rfl⟩

/-! ### Lookups after `alloc` -/

/-- A successful create operation stores a resource under its ID, which is in the
range of the kind's table. -/
theorem step_creates (backend : Backend) (llo : Context) (op : Op) (kind : ResourceKind)
    (id : Int) (hc : op.creates = some (kind, id))
    (hs : (step backend llo op).1 = LLOResult.LLO_SUCCESS) :
    (llo.table kind).inRange id = true ∧
    ∃ r, (step backend llo op).2.get kind id = Except.ok (some r) := by
  cases op <;> simp only [Op.creates, Option.some.injEq, Prod.mk.injEq] at hc <;>
    first | (cases hc; done) | skip
  case moduleCreate moduleID ptx =>
    obtain ⟨rfl, rfl⟩ := hc
    simp only [step, lloModuleCreate] at hs ⊢
    split at hs
    · rename_i hr
      exact ⟨hr, _, by rw [if_pos hr]; exact HandleTable.lookup_set_self _ _ _ hr⟩
    · cases hs
  case launchParamsCreate lid size =>
    obtain ⟨rfl, rfl⟩ := hc
    simp only [step, lloLaunchParamsCreate] at hs ⊢
    split at hs
    · rename_i hr
      exact ⟨hr, _, by rw [if_pos hr]; exact HandleTable.lookup_set_self _ _ _ hr⟩
    · cases hs
  case bufferCreate bk bid size =>
    obtain ⟨rfl, rfl⟩ := hc
    simp only [step, Context.bufferCreate] at hs ⊢
    split at hs
    · rename_i hr
      exact ⟨hr, _, by rw [if_pos hr]; exact HandleTable.lookup_set_self _ _ _ hr⟩
    · cases hs
  case geomTypeCreate gid size =>
    obtain ⟨rfl, rfl⟩ := hc
    simp only [step, lloGeomTypeCreate] at hs ⊢
    split at hs
    · rename_i hr
      exact ⟨hr, _, by rw [if_pos hr]; exact HandleTable.lookup_set_self _ _ _ hr⟩
    · cases hs
  case groupCreate gk gid children =>
    obtain ⟨rfl, rfl⟩ := hc
    simp only [step, Context.groupCreate] at hs ⊢
    split at hs
    · rename_i hr
      exact ⟨hr, _, by rw [if_pos hr]; exact HandleTable.lookup_set_self _ _ _ hr⟩
    · cases hs
  case rayGenCreate pid mid name size =>
    obtain ⟨rfl, rfl⟩ := hc
    simp only [step, lloRayGenCreate] at hs ⊢
    split at hs
    · rename_i hr
      rw [if_pos hr]
      split at hs
      · cases hs
      · rename_i prog hp
        exact ⟨hr, _, HandleTable.lookup_set_self _ _ _ hr⟩
    · cases hs
  case missProgCreate pid mid name size =>
    obtain ⟨rfl, rfl⟩ := hc
    simp only [step, lloMissProgCreate] at hs ⊢
    split at hs
    · rename_i hr
      rw [if_pos hr]
      split at hs
      · cases hs
      · rename_i prog hp
        exact ⟨hr, _, HandleTable.lookup_set_self _ _ _ hr⟩
    · cases hs
  case trianglesGeomCreate gid tid =>
    obtain ⟨rfl, rfl⟩ := hc
    simp only [step, lloTrianglesGeomCreate] at hs ⊢
    split at hs
    · rename_i hr
      rw [if_pos hr]
      split at hs
      · cases hs
      · rename_i gt hp
        exact ⟨hr, _, HandleTable.lookup_set_self _ _ _ hr⟩
    · cases hs
  case userGeomCreate gid tid n =>
    obtain ⟨rfl, rfl⟩ := hc
    simp only [step, lloUserGeomCreate] at hs ⊢
    split at hs
    · rename_i hr
      rw [if_pos hr]
      split at hs
      · cases hs
      · rename_i gt hp
        exact ⟨hr, _, HandleTable.lookup_set_self _ _ _ hr⟩
    · cases hs

/-- A table keeps its own reserved IDs. -/
theorem HandleTable.keepsIDs_refl {α : Type} (t : HandleTable α) : t.KeepsIDs t :=
  ⟨rfl, fun h => h⟩

/-- Keeping the reserved IDs is transitive. -/
theorem HandleTable.keepsIDs_trans {α : Type} (t t1 t2 : HandleTable α)
    (h1 : t.KeepsIDs t1) (h2 : t1.KeepsIDs t2) : t.KeepsIDs t2 :=
  ⟨h2.1.trans h1.1, fun h => h2.2 (h1.2 h)⟩

/-- Storing a resource keeps the reserved IDs. -/
theorem HandleTable.keepsIDs_set {α : Type} (t : HandleTable α) (id : Int) (r : α) :
    t.KeepsIDs (t.set id r) := by
  refine ⟨HandleTable.size_set t id r, ?_⟩
  intro h hmem
  unfold HandleTable.set at hmem
  split at hmem
  · exact h hmem
  · rcases List.mem_or_eq_of_mem_set hmem with h1 | h1
    · exact h h1
    · cases h1

/-- Mapping the slots of a table by a function that unsets none keeps the
reserved IDs. -/
theorem HandleTable.keepsIDs_map {α : Type} (t : HandleTable α) (f : Slot α → Slot α)
    (hf : ∀ slot, f slot = Slot.unset → slot = Slot.unset) :
    t.KeepsIDs (HandleTable.mk (t.slots.map f)) := by
  refine ⟨by simp [HandleTable.size], ?_⟩
  intro h hmem
  obtain ⟨slot, hslot, hfs⟩ := List.mem_map.mp hmem
  rw [hf slot hfs] at hslot
  exact h hslot

/-- Compiling a slot unsets none. -/
theorem compileSlot_unset (backend : Backend) (slot : Slot Module)
    (h : compileSlot backend slot = Slot.unset) : slot = Slot.unset := by
  cases slot with
  | unset => rfl
  | reserved => simp [compileSlot] at h
  | created m =>
    simp only [compileSlot] at h
    split at h <;> cases h

/-- Making the device bounds program the bounds source of a slot unsets none. -/
theorem useDeviceBounds_unset (geomTypeID : Int) (slot : Slot Geom)
    (h : useDeviceBounds geomTypeID slot = Slot.unset) : slot = Slot.unset := by
  cases slot with
  | unset => rfl
  | reserved => simp [useDeviceBounds] at h
  | created g =>
    obtain ⟨tid, data⟩ := g
    cases data with
    | triangles v i => simp [useDeviceBounds] at h
    | user numPrims source =>
      simp only [useDeviceBounds] at h
      split at h <;> cases h

/-- An operation other than the kind's `alloc` and a buffer destroy keeps the
reserved IDs of the kind. -/
theorem step_keepsIDs (backend : Backend) (llo : Context) (op : Op) (kind : ResourceKind)
    (h : op.keepsIDs kind = true) :
    (llo.table kind).KeepsIDs ((step backend llo op).2.table kind) := by
  cases op with
  | alloc k count =>
    cases k <;> cases kind <;>
      first | exact HandleTable.keepsIDs_refl _ | simp [Op.keepsIDs] at h
  | bufferDestroy bufferID =>
    cases kind
    case buffers => simp [Op.keepsIDs] at h
    all_goals
      simp only [step, lloBufferDestroy]
      split <;> exact HandleTable.keepsIDs_refl _
  | setMaxInstancingDepth d => cases kind <;> exact HandleTable.keepsIDs_refl _
  | setRayTypeCount n => cases kind <;> exact HandleTable.keepsIDs_refl _
  | buildModules =>
    cases kind
    case modules =>
      simp only [step, lloBuildModules]
      split <;> exact HandleTable.keepsIDs_map _ _ (compileSlot_unset backend)
    all_goals
      simp only [step, lloBuildModules]
      split <;> exact HandleTable.keepsIDs_refl _
  | _ =>
    cases kind
    all_goals
      simp only [step, lloModuleCreate, lloRayGenCreate, lloMissProgCreate, lloLaunchParamsCreate,
        Context.bufferCreate, lloGeomTypeCreate, Context.geomTypeBind, lloGeomTypeBoundsProgDevice,
        lloTrianglesGeomCreate, lloUserGeomCreate, lloTrianglesGeomSetVertexBuffer,
        lloTrianglesGeomSetIndexBuffer, lloUserGeomSetBoundsBuffer, Context.groupCreate,
        lloInstanceGroupSetTransform, lloGroupAccelBuild, Context.buildInstanceGroup,
        Context.buildGeomGroup]
      repeat' split
      all_goals
        first
        | exact HandleTable.keepsIDs_refl _
        | exact HandleTable.keepsIDs_set _ _ _
        | exact HandleTable.keepsIDs_map _ _ (useDeviceBounds_unset _)

/-- A history without the kind's `alloc` and without a buffer destroy keeps the
reserved IDs of the kind. -/
theorem run_keepsIDs (backend : Backend) (llo : Context) (ops : List Op) (kind : ResourceKind)
    (h : ∀ op ∈ ops, op.keepsIDs kind = true) :
    (llo.table kind).KeepsIDs ((run backend llo ops).table kind) := by
  induction ops generalizing llo with
  | nil => exact HandleTable.keepsIDs_refl _
  | cons op ops ih =>
    have h1 := step_keepsIDs backend llo op kind (h op (List.mem_cons_self _ _))
    have h2 := ih (step backend llo op).2 (fun o ho => h o (List.mem_cons_of_mem _ ho))
    exact HandleTable.keepsIDs_trans _ _ _ h1 h2

/-- In a table without an unset slot the lookup of every ID in range succeeds. -/
theorem HandleTable.lookup_of_inRange {α : Type} (t : HandleTable α) (id : Int)
    (hu : Slot.unset ∉ t.slots) (h : t.inRange id = true) : ∃ r, t.lookup id = Except.ok r := by
  have h0 : 0 ≤ id ∧ id < (t.size : Int) := by
    simpa [HandleTable.inRange] using h
  have h2 : id.toNat < t.slots.length := by
    unfold HandleTable.size at h0
    omega
  have hmem : t.slots[id.toNat] ∈ t.slots := List.getElem_mem h2
  unfold HandleTable.lookup
  rw [if_neg (not_lt.mpr h0.1), List.getElem?_eq_getElem h2]
  cases hs : t.slots[id.toNat] with
  | unset => rw [hs] at hmem; exact absurd hmem hu
  | reserved => exact ⟨_, rfl⟩
  | created r => exact ⟨_, rfl⟩

/-- No slot of a freshly allocated table is unset. -/
theorem HandleTable.alloc_not_unset {α : Type} (t : HandleTable α) (count : Int) :
    Slot.unset ∉ (t.alloc count).slots := by
  intro h
  unfold HandleTable.alloc at h
  cases (List.mem_replicate.mp h).2

/-- Destroying a buffer unsets its slot: the lookup of its ID fails with
InvalidHandle from then on, until a new buffer is created under the ID, which
the lookup then hands out. -/
theorem lloBufferDestroy_lookup (llo : Context) (bufferID : Int)
    (hs : (lloBufferDestroy llo bufferID).1 = LLOResult.LLO_SUCCESS) :
    (lloBufferDestroy llo bufferID).2.get ResourceKind.buffers bufferID
      = Except.error LLOError.InvalidHandle ∧
    ∀ (kind : BufferKind) (sizeInBytes : Nat),
      ((lloBufferDestroy llo bufferID).2.bufferCreate kind bufferID sizeInBytes).1
        = LLOResult.LLO_SUCCESS ∧
      ((lloBufferDestroy llo bufferID).2.bufferCreate kind bufferID sizeInBytes).2.get
        ResourceKind.buffers bufferID = Except.ok (some ⟨kind, sizeInBytes⟩) := by
  unfold lloBufferDestroy at hs ⊢
  split at hs
  · cases hs
  · rename_i b hb
    obtain ⟨hr, -⟩ := HandleTable.of_get _ _ _ hb
    have h0 : 0 ≤ bufferID ∧ bufferID < (llo.buffers.size : Int) := by
      simpa [HandleTable.inRange] using hr
    have h2 : bufferID.toNat < llo.buffers.slots.length := by
      unfold HandleTable.size at h0
      omega
    have hr1 : (llo.buffers.unset bufferID).inRange bufferID = true := by
      unfold HandleTable.unset
      rw [if_neg (not_lt.mpr h0.1)]
      simpa [HandleTable.inRange, HandleTable.size] using h0
    refine ⟨?_, ?_⟩
    · show (llo.buffers.unset bufferID).lookup bufferID = _
      unfold HandleTable.lookup HandleTable.unset
      rw [if_neg (not_lt.mpr h0.1), if_neg (not_lt.mpr h0.1)]
      simp [List.getElem?_set_self, h2]
    · intro kind sizeInBytes
      have hr2 : ({ llo with buffers := llo.buffers.unset bufferID } : Context).buffers.inRange
          bufferID = true := hr1
      simp only [Context.bufferCreate, Context.succeed]
      rw [if_pos hr2]
      exact ⟨rfl, HandleTable.lookup_set_self _ _ _ hr1⟩

/-- C1 (spec-modelled): for every resource kind and every count `n ≥ 0`, the
kind's alloc operation succeeds, and after it the lookup of any ID `i` with
`0 ≤ i < n` succeeds (it finds the reserved slot, in which no resource is
created yet) and the lookup of any ID `i ≥ n` or `i < 0` fails with
InvalidHandle.  This stays so through every later history of operations that
contains neither the kind's alloc nor a buffer destroy: the lookup of an ID in
`[0,n)` succeeds and the lookup of an ID outside fails with InvalidHandle.  A
create operation of the kind that succeeds on ID `i` after the alloc has `i` in
`[0,n)`, and the lookup of `i` then hands out the created resource. -/
theorem C1_lookup_after_alloc (llo : Context) (kind : ResourceKind) (n : Nat) (i : Int) :
    (llo.alloc kind n).1 = LLOResult.LLO_SUCCESS ∧
    ((0 ≤ i ∧ i < n) → (llo.alloc kind n).2.get kind i = Except.ok none) ∧
    ((i < 0 ∨ (n : Int) ≤ i) →
      (llo.alloc kind n).2.get kind i = Except.error LLOError.InvalidHandle) ∧
    (∀ (backend : Backend) (ops : List Op), (∀ op ∈ ops, op.keepsIDs kind = true) →
      ((0 ≤ i ∧ i < n) →
        ∃ r, (run backend (llo.alloc kind n).2 ops).get kind i = Except.ok r) ∧
      ((i < 0 ∨ (n : Int) ≤ i) →
        (run backend (llo.alloc kind n).2 ops).get kind i
          = Except.error LLOError.InvalidHandle)) ∧
    (∀ (backend : Backend) (op : Op), op.creates = some (kind, i) →
      (step backend (llo.alloc kind n).2 op).1 = LLOResult.LLO_SUCCESS →
      (0 ≤ i ∧ i < n) ∧
      ∃ r, (step backend (llo.alloc kind n).2 op).2.get kind i = Except.ok (some r)) := by
  obtain ⟨hres, htab⟩ := Context.table_alloc llo kind n
  have hrange : ((llo.table kind).alloc n).inRange i = true ↔ (0 ≤ i ∧ i < n) := by
    simp [HandleTable.inRange, HandleTable.size_alloc]
  refine ⟨hres, ?_, ?_, ?_, ?_⟩
  · intro h
    unfold Context.get
    rw [htab, HandleTable.lookup_alloc, if_pos h]
  · intro h
    have h1 : ¬ (0 ≤ i ∧ i < (n : Int)) := by omega
    unfold Context.get
    rw [htab, HandleTable.lookup_alloc, if_neg h1]
  · intro backend ops hops
    obtain ⟨hsize, hunset⟩ := run_keepsIDs backend (llo.alloc kind n).2 ops kind hops
    rw [htab] at hsize hunset
    have hu := hunset (HandleTable.alloc_not_unset _ _)
    have hrange1 : ((run backend (llo.alloc kind n).2 ops).table kind).inRange i = true
        ↔ (0 ≤ i ∧ i < n) := by
      simp [HandleTable.inRange, hsize, HandleTable.size_alloc]
    refine ⟨?_, ?_⟩
    · intro h
      exact HandleTable.lookup_of_inRange _ _ hu (hrange1.mpr h)
    · intro h
      apply HandleTable.lookup_of_not_inRange
      cases hb : ((run backend (llo.alloc kind n).2 ops).table kind).inRange i
      · rfl
      · have := hrange1.mp hb
        omega
  · intro backend op hc hs
    obtain ⟨hin, hget⟩ := step_creates backend _ op kind i hc hs
    rw [htab] at hin
    exact ⟨hrange.mp hin, hget⟩

/-- C1, at a concrete input: after `lloAllocModules` with count 2 the lookup of
module ID 1 succeeds, and it still succeeds after a history that creates and
compiles module 0 and allocates, creates and destroys a buffer. -/
theorem C1_lookup_after_alloc_witness :
    (0 ≤ (1 : Int) ∧ (1 : Int) < ((2 : Nat) : Int)) ∧
    (∀ op ∈ moduleOps, op.keepsIDs ResourceKind.modules = true) ∧
    (demoContext.alloc ResourceKind.modules (2 : Nat)).2.get ResourceKind.modules 1
      = Except.ok none ∧
    ∃ r, (run demoBackend (demoContext.alloc ResourceKind.modules (2 : Nat)).2 moduleOps).get
      ResourceKind.modules 1 = Except.ok r :=
  ⟨by decide, by decide,
    (C1_lookup_after_alloc demoContext ResourceKind.modules 2 1).2.1 (by decide),
    ((C1_lookup_after_alloc demoContext ResourceKind.modules 2 1).2.2.2.1 demoBackend moduleOps
      (by decide)).1 (by decide)⟩

/-! ### The C++ overloads: result codes and callback arguments -/

/-- C2: every C operation hands its caller an `LLOResult`, but the five C++
callable-taking overloads are `void`: the value they hand their caller is the
same whether the C operation they invoke succeeds or fails, so no caller can
recover the `LLOResult` of that operation from an overload. -/
theorem C2_overloads_discard_result {Ctx σ : Type} (llo : Ctx) (a : VoidPtr) (s : σ)
    (groupID sizeOfData : Nat) (rayGenID Nx Ny launchParamsID : Int)
    (d3 : VoidPtr → Option (Lambda3 σ)) (d4 : VoidPtr → Option (Lambda4 σ))
    (d2 : VoidPtr → Option (Lambda2 σ)) :
    (¬ ∃ observe : Unit → LLOResult, ∀ cOp : Ctx → LLOWriteRayGenDataCB σ → VoidPtr → σ → LLOResult × σ,
        observe (lloSbtRayGensBuild_cpp cOp d3 llo a s).1 = (cOp llo (rayGenCallback d3) a s).1) ∧
    (¬ ∃ observe : Unit → LLOResult, ∀ cOp : Ctx → LLOWriteHitProgDataCB σ → VoidPtr → σ → LLOResult × σ,
        observe (lloSbtHitProgsBuild_cpp cOp d4 llo a s).1 = (cOp llo (hitProgCallback d4) a s).1) ∧
    (¬ ∃ observe : Unit → LLOResult, ∀ cOp : Ctx → LLOWriteMissProgDataCB σ → VoidPtr → σ → LLOResult × σ,
        observe (lloSbtMissProgsBuild_cpp cOp d3 llo a s).1 = (cOp llo (missProgCallback d3) a s).1) ∧
    (¬ ∃ observe : Unit → LLOResult,
        ∀ cOp : Ctx → Int → Nat → LLOWriteUserGeomBoundsDataCB σ → VoidPtr → σ → LLOResult × σ,
        observe (lloGroupBuildPrimitiveBounds_cpp cOp d4 llo groupID sizeOfData a s).1
          = (cOp llo (if groupID % 2 ^ 32 < 2 ^ 31 then ((groupID % 2 ^ 32 : Nat) : Int)
                      else ((groupID % 2 ^ 32 : Nat) : Int) - 2 ^ 32)
              sizeOfData (userGeomBoundsCallback d4) a s).1) ∧
    (¬ ∃ observe : Unit → LLOResult,
        ∀ cOp : Ctx → Int → Int → Int → Int → LLOWriteLaunchParamsCB σ → VoidPtr → σ → LLOResult × σ,
        observe (lloParamsLaunch2D_cpp cOp d2 llo rayGenID Nx Ny launchParamsID a s).1
          = (cOp llo rayGenID Nx Ny launchParamsID (launchParamsCallback d2) a s).1) := by
  refine ⟨?_, ?_, ?_, ?_, ?_⟩
  · rintro ⟨observe, h⟩
    have h1 := h (fun _ _ _ t => (LLOResult.LLO_SUCCESS, t))
    have h2 := h (fun _ _ _ t => (LLOResult.LLO_UNKNOWN_ERROR, t))
    simp only [lloSbtRayGensBuild_cpp] at h1 h2
    rw [h1] at h2
    exact absurd h2 (by decide)
  · rintro ⟨observe, h⟩
    have h1 := h (fun _ _ _ t => (LLOResult.LLO_SUCCESS, t))
    have h2 := h (fun _ _ _ t => (LLOResult.LLO_UNKNOWN_ERROR, t))
    simp only [lloSbtHitProgsBuild_cpp] at h1 h2
    rw [h1] at h2
    exact absurd h2 (by decide)
  · rintro ⟨observe, h⟩
    have h1 := h (fun _ _ _ t => (LLOResult.LLO_SUCCESS, t))
    have h2 := h (fun _ _ _ t => (LLOResult.LLO_UNKNOWN_ERROR, t))
    simp only [lloSbtMissProgsBuild_cpp] at h1 h2
    rw [h1] at h2
    exact absurd h2 (by decide)
  · rintro ⟨observe, h⟩
    have h1 := h (fun _ _ _ _ _ t => (LLOResult.LLO_SUCCESS, t))
    have h2 := h (fun _ _ _ _ _ t => (LLOResult.LLO_UNKNOWN_ERROR, t))
    simp only [lloGroupBuildPrimitiveBounds_cpp] at h1 h2
    rw [h1] at h2
    exact absurd h2 (by decide)
  · rintro ⟨observe, h⟩
    have h1 := h (fun _ _ _ _ _ _ _ t => (LLOResult.LLO_SUCCESS, t))
    have h2 := h (fun _ _ _ _ _ _ _ t => (LLOResult.LLO_UNKNOWN_ERROR, t))
    simp only [lloParamsLaunch2D_cpp] at h1 h2
    rw [h1] at h2
    exact absurd h2 (by decide)

/-- C3: with the callable `l` living at address `a`, every callback installed by
a C++ overload, invoked with user data `a`, runs `l` once on exactly the values
the callback received, in the same order and without the user-data pointer (for
a callable that only records its calls, the log grows by that single entry);
and each overload hands the C operation that callback together with `a`, so a C
operation that invokes its callback once per slot runs `l` once per slot, and a
C operation that reports the user-data pointer it was handed reports `a`. -/
theorem C3_overloads_forward_arguments {Ctx σ : Type} (llo : Ctx) (a : VoidPtr)
    (output : BytePtr) (devID x y : Int) (s : σ)
    (d3 : VoidPtr → Option (Lambda3 σ)) (l3 : Lambda3 σ) (h3 : d3 a = some l3)
    (d4 : VoidPtr → Option (Lambda4 σ)) (l4 : Lambda4 σ) (h4 : d4 a = some l4)
    (d2 : VoidPtr → Option (Lambda2 σ)) (l2 : Lambda2 σ) (h2 : d2 a = some l2) :
    (rayGenCallback d3 output devID x a s = l3 output devID x s ∧
     hitProgCallback d4 output devID x y a s = l4 output devID x y s ∧
     missProgCallback d3 output devID x a s = l3 output devID x s ∧
     userGeomBoundsCallback d4 output devID x y a s = l4 output devID x y s ∧
     launchParamsCallback d2 output devID a s = l2 output devID s) ∧
    (∀ log, rayGenCallback (storeAt a record3) output devID x a log
        = log ++ [(output, devID, x)]) ∧
    (∀ log, hitProgCallback (storeAt a record4) output devID x y a log
        = log ++ [(output, devID, x, y)]) ∧
    (∀ log, missProgCallback (storeAt a record3) output devID x a log
        = log ++ [(output, devID, x)]) ∧
    (∀ log, userGeomBoundsCallback (storeAt a record4) output devID x y a log
        = log ++ [(output, devID, x, y)]) ∧
    (∀ log, launchParamsCallback (storeAt a record2) output devID a log
        = log ++ [(output, devID)]) ∧
    (∀ slots r, (lloSbtRayGensBuild_cpp (invokeEach3 slots r) d3 llo a s).2
        = slots.foldl (fun t c => l3 c.1 c.2.1 c.2.2 t) s) ∧
    (∀ slots r, (lloSbtHitProgsBuild_cpp (invokeEach4 slots r) d4 llo a s).2
        = slots.foldl (fun t c => l4 c.1 c.2.1 c.2.2.1 c.2.2.2 t) s) ∧
    (∀ slots r, (lloSbtMissProgsBuild_cpp (invokeEach3 slots r) d3 llo a s).2
        = slots.foldl (fun t c => l3 c.1 c.2.1 c.2.2 t) s) ∧
    (∀ slots r g n, (lloGroupBuildPrimitiveBounds_cpp (fun c (_ : Int) (_ : Nat) =>
          invokeEach4 slots r c) d4 llo g n a s).2
        = slots.foldl (fun t c => l4 c.1 c.2.1 c.2.2.1 c.2.2.2 t) s) ∧
    (∀ slots r g nx ny p, (lloParamsLaunch2D_cpp (fun c (_ _ _ _ : Int) =>
          invokeEach2 slots r c) d2 llo g nx ny p a s).2
        = slots.foldl (fun t c => l2 c.1 c.2 t) s) ∧
    ((∀ (d : VoidPtr → Option (Lambda3 VoidPtr)) (s0 : VoidPtr),
        (lloSbtRayGensBuild_cpp (@userDataOf3 Ctx) d llo a s0).2 = a) ∧
     (∀ (d : VoidPtr → Option (Lambda4 VoidPtr)) (s0 : VoidPtr),
        (lloSbtHitProgsBuild_cpp (@userDataOf4 Ctx) d llo a s0).2 = a) ∧
     (∀ (d : VoidPtr → Option (Lambda3 VoidPtr)) (s0 : VoidPtr),
        (lloSbtMissProgsBuild_cpp (@userDataOf3 Ctx) d llo a s0).2 = a) ∧
     (∀ (d : VoidPtr → Option (Lambda4 VoidPtr)) (s0 : VoidPtr) g n,
        (lloGroupBuildPrimitiveBounds_cpp (fun c (_ : Int) (_ : Nat) => userDataOf4 c)
          d llo g n a s0).2 = a) ∧
     (∀ (d : VoidPtr → Option (Lambda2 VoidPtr)) (s0 : VoidPtr) g nx ny p,
        (lloParamsLaunch2D_cpp (fun c (_ _ _ _ : Int) => userDataOf2 c)
          d llo g nx ny p a s0).2 = a)) := by
  refine ⟨⟨?_, ?_, ?_, ?_, ?_⟩, ?_, ?_, ?_, ?_, ?_, ?_, ?_, ?_, ?_, ?_,
    ⟨fun _ _ => rfl, fun _ _ => rfl, fun _ _ => rfl, fun _ _ _ _ => rfl,
      fun _ _ _ _ _ _ => rfl⟩⟩
  · simp [rayGenCallback, h3]
  · simp [hitProgCallback, h4]
  · simp [missProgCallback, h3]
  · simp [userGeomBoundsCallback, h4]
  · simp [launchParamsCallback, h2]
  · intro log; simp [rayGenCallback, storeAt, record3]
  · intro log; simp [hitProgCallback, storeAt, record4]
  · intro log; simp [missProgCallback, storeAt, record3]
  · intro log; simp [userGeomBoundsCallback, storeAt, record4]
  · intro log; simp [launchParamsCallback, storeAt, record2]
  · intro slots r; simp [lloSbtRayGensBuild_cpp, invokeEach3, rayGenCallback, h3]
  · intro slots r; simp [lloSbtHitProgsBuild_cpp, invokeEach4, hitProgCallback, h4]
  · intro slots r; simp [lloSbtMissProgsBuild_cpp, invokeEach3, missProgCallback, h3]
  · intro slots r g n
    simp [lloGroupBuildPrimitiveBounds_cpp, invokeEach4, userGeomBoundsCallback, h4]
  · intro slots r g nx ny p
    simp [lloParamsLaunch2D_cpp, invokeEach2, launchParamsCallback, h2]

/-- C3, at a concrete callable: with the callable that adds the ID it is given
to a counter stored at address 7, the callback installed by
`lloSbtRayGensBuild`, invoked with `(64, 0, 2)` and user data 7, adds 2. -/
theorem C3_overloads_forward_arguments_witness :
    storeAt 7 (fun (_ : BytePtr) (_ id : Int) (s : Int) => s + id) 7
        = some (fun (_ : BytePtr) (_ id : Int) (s : Int) => s + id) ∧
    rayGenCallback (storeAt 7 (fun (_ : BytePtr) (_ id : Int) (s : Int) => s + id)) 64 0 2 7 10
        = 12 :=
  ⟨rfl,
   (C3_overloads_forward_arguments () 7 64 0 2 5 (10 : Int)
      (storeAt 7 (fun (_ : BytePtr) (_ id : Int) (s : Int) => s + id))
      (fun (_ : BytePtr) (_ id : Int) (s : Int) => s + id) rfl
      (storeAt 7 (fun (_ : BytePtr) (_ id k : Int) (s : Int) => s + id + k))
      (fun (_ : BytePtr) (_ id k : Int) (s : Int) => s + id + k) rfl
      (storeAt 7 (fun (_ : BytePtr) (d : Int) (s : Int) => s + d))
      (fun (_ : BytePtr) (d : Int) (s : Int) => s + d) rfl).1.1⟩

/-! ### Hit-record callbacks -/

/-- A callback that appends each call to a log leaves the list of calls. -/
theorem foldl_append_singleton {α : Type} (l init : List α) :
    l.foldl (fun t c => t ++ [c]) init = init ++ l := by
  induction l generalizing init with
  | nil => simp
  | cons a l ih => simp [ih]

/-- C5: `LLO_SUCCESS` has the value 0, the only other value of `LLOResult` is
the failure value `LLO_UNKNOWN_ERROR`, and no failure value compares equal to
`LLO_SUCCESS`, neither as an enumerator nor as an integer. -/
theorem C5_success_differs_from_failure :
    LLOResult.LLO_SUCCESS.toInt = 0 ∧
    LLOResult.LLO_SUCCESS.isFailure = false ∧
    LLOResult.LLO_UNKNOWN_ERROR.isFailure = true ∧
    (∀ r : LLOResult, r.isFailure = true ↔ r = LLOResult.LLO_UNKNOWN_ERROR) ∧
    (∀ r : LLOResult, r.isFailure = true →
      r ≠ LLOResult.LLO_SUCCESS ∧ r.toInt ≠ LLOResult.LLO_SUCCESS.toInt) ∧
    (∀ r : LLOResult, r.toInt = 0 ↔ r = LLOResult.LLO_SUCCESS) := by
  refine ⟨rfl, rfl, rfl, ?_, ?_, ?_⟩
  · intro r; cases r <;> decide
  · intro r; cases r <;> decide
  · intro r; cases r <;> decide

/-! ### Ray types -/

/-- A successful binding leaves the ray-type count and the modules alone and the
geometry type created. -/
theorem geomTypeBind_success (llo : Context) (slot : HitSlot)
    (geomTypeID rayTypeID moduleID : Int) (programName : String)
    (h : (llo.geomTypeBind slot geomTypeID rayTypeID moduleID programName).1
      = LLOResult.LLO_SUCCESS) :
    (0 ≤ rayTypeID ∧ rayTypeID < llo.rayTypeCount) ∧
    (llo.geomTypeBind slot geomTypeID rayTypeID moduleID programName).2.rayTypeCount
      = llo.rayTypeCount ∧
    (llo.geomTypeBind slot geomTypeID rayTypeID moduleID programName).2.modules = llo.modules ∧
    ∃ gt, (llo.geomTypeBind slot geomTypeID rayTypeID moduleID programName).2.geomTypes.get
      geomTypeID = Except.ok gt := by
  unfold Context.geomTypeBind at h ⊢
  cases hgt : llo.geomTypes.get geomTypeID with
  | error e => simp [hgt, Context.fail] at h
  | ok gt =>
    simp only [hgt] at h ⊢
    by_cases hr : rayTypeID < 0 ∨ (llo.rayTypeCount : Int) ≤ rayTypeID
    · simp [hr, Context.fail] at h
    · simp only [hr, if_false] at h ⊢
      cases hp : llo.resolveProgram moduleID programName with
      | error e => simp [hp, Context.fail] at h
      | ok prog =>
        refine ⟨by omega, rfl, rfl, gt.bind slot rayTypeID.toNat prog, ?_⟩
        show (llo.geomTypes.set geomTypeID _).get geomTypeID = _
        apply HandleTable.get_set_self
        by_contra hin
        rw [HandleTable.get_of_not_inRange _ _ (by simpa using hin)] at hgt
        cases hgt

/-- A binding on a created geometry type succeeds when the ray type is in range
and the program resolves. -/
theorem geomTypeBind_ok (llo : Context) (slot : HitSlot)
    (geomTypeID rayTypeID moduleID : Int) (programName : String) (gt : GeomType) (prog : Program)
    (hgt : llo.geomTypes.get geomTypeID = Except.ok gt)
    (hp : llo.resolveProgram moduleID programName = Except.ok prog)
    (h0 : 0 ≤ rayTypeID) (h1 : rayTypeID < llo.rayTypeCount) :
    (llo.geomTypeBind slot geomTypeID rayTypeID moduleID programName).1
      = LLOResult.LLO_SUCCESS := by
  unfold Context.geomTypeBind
  have hr : ¬ (rayTypeID < 0 ∨ (llo.rayTypeCount : Int) ≤ rayTypeID) := by omega
  simp [hgt, hr, hp, Context.succeed]

/-- A binding on a created geometry type at a ray type that is not below the
ray-type count fails with InvalidRayType and changes nothing else. -/
theorem geomTypeBind_invalidRayType (llo : Context) (slot : HitSlot)
    (geomTypeID rayTypeID moduleID : Int) (programName : String) (gt : GeomType)
    (hgt : llo.geomTypes.get geomTypeID = Except.ok gt)
    (h : (llo.rayTypeCount : Int) ≤ rayTypeID) :
    llo.geomTypeBind slot geomTypeID rayTypeID moduleID programName
      = (LLOResult.LLO_UNKNOWN_ERROR, { llo with lastError := some LLOError.InvalidRayType }) := by
  unfold Context.geomTypeBind
  simp [hgt, h, Context.fail]

/-- Resolving a program depends on the modules only. -/
theorem resolveProgram_congr (llo llo1 : Context) (h : llo1.modules = llo.modules)
    (moduleID : Int) (programName : String) :
    llo1.resolveProgram moduleID programName = llo.resolveProgram moduleID programName := by
  unfold Context.resolveProgram
  rw [h]

/-- C6: a binding of a program to (geomType, rayType) succeeds only if
0 <= rayType < rayTypeCount; on a created geometry type a ray type at or above
the ray-type count fails (`LLO_UNKNOWN_ERROR`) with the last error
InvalidRayType, which differs from every other error of the taxonomy, and
changes nothing else; an in-range ray type with a resolvable program succeeds.
With the ray-type count 2, binding closest-hit at ray type 0 and then at ray
type 1 succeeds and binding at ray type 2 fails with InvalidRayType. -/
theorem C6_ray_type_binding (llo : Context) (slot : HitSlot)
    (geomTypeID rayTypeID moduleID : Int) (programName : String) (gt : GeomType)
    (hgt : llo.geomTypes.get geomTypeID = Except.ok gt) :
    ((llo.geomTypeBind slot geomTypeID rayTypeID moduleID programName).1 = LLOResult.LLO_SUCCESS →
      0 ≤ rayTypeID ∧ rayTypeID < llo.rayTypeCount) ∧
    ((llo.rayTypeCount : Int) ≤ rayTypeID →
      llo.geomTypeBind slot geomTypeID rayTypeID moduleID programName
        = (LLOResult.LLO_UNKNOWN_ERROR, { llo with lastError := some LLOError.InvalidRayType })) ∧
    ([LLOError.InvalidHandle, LLOError.UnknownResource, LLOError.ProgramNotFound,
      LLOError.ConflictingBoundsSource, LLOError.CompilationFailure,
      LLOError.InstancingDepthExceeded, LLOError.BackendFailure].all
        (fun e => e != LLOError.InvalidRayType) = true) ∧
    (∀ prog, llo.resolveProgram moduleID programName = Except.ok prog →
      0 ≤ rayTypeID → rayTypeID < llo.rayTypeCount →
      (llo.geomTypeBind slot geomTypeID rayTypeID moduleID programName).1
        = LLOResult.LLO_SUCCESS) ∧
    (∀ prog, llo.resolveProgram moduleID programName = Except.ok prog → llo.rayTypeCount = 2 →
      (lloGeomTypeClosestHit llo geomTypeID 0 moduleID programName).1 = LLOResult.LLO_SUCCESS ∧
      (lloGeomTypeClosestHit (lloGeomTypeClosestHit llo geomTypeID 0 moduleID programName).2
        geomTypeID 1 moduleID programName).1 = LLOResult.LLO_SUCCESS ∧
      (lloGeomTypeClosestHit
        (lloGeomTypeClosestHit (lloGeomTypeClosestHit llo geomTypeID 0 moduleID programName).2
          geomTypeID 1 moduleID programName).2 geomTypeID 2 moduleID programName).1
        = LLOResult.LLO_UNKNOWN_ERROR ∧
      (lloGeomTypeClosestHit
        (lloGeomTypeClosestHit (lloGeomTypeClosestHit llo geomTypeID 0 moduleID programName).2
          geomTypeID 1 moduleID programName).2 geomTypeID 2 moduleID programName).2.lastError
        = some LLOError.InvalidRayType) := by
  refine ⟨fun h => (geomTypeBind_success llo slot _ _ _ _ h).1,
    fun h => geomTypeBind_invalidRayType llo slot _ _ _ _ gt hgt h,
    by decide,
    fun prog hp h0 h1 => geomTypeBind_ok llo slot _ _ _ _ gt prog hgt hp h0 h1, ?_⟩
  intro prog hp hcount
  unfold lloGeomTypeClosestHit
  have s0 := geomTypeBind_ok llo .closestHit geomTypeID 0 moduleID programName gt prog hgt hp
    (by omega) (by omega)
  obtain ⟨-, hc1, hm1, gt1, hgt1⟩ := geomTypeBind_success llo .closestHit _ _ _ _ s0
  have s1 := geomTypeBind_ok _ .closestHit geomTypeID 1 moduleID programName gt1 prog hgt1
    ((resolveProgram_congr _ _ hm1 _ _).trans hp) (by omega) (by omega)
  obtain ⟨-, hc2, -, gt2, hgt2⟩ := geomTypeBind_success _ .closestHit _ _ _ _ s1
  have s2 := geomTypeBind_invalidRayType _ .closestHit geomTypeID 2 moduleID programName gt2 hgt2
    (by omega)
  refine ⟨s0, s1, ?_, ?_⟩
  · rw [s2]
  · rw [s2]

/-- C6, on a context with a compiled module, ray-type count 2 and geometry
type 0: closest-hit binds at ray types 0 and 1 and fails with InvalidRayType at
ray type 2. -/
theorem C6_ray_type_binding_witness :
    (run demoBackend demoContext rayTypeOps).geomTypes.get 0
      = Except.ok (GeomType.mk 16 [] [] [] none) ∧
    (lloGeomTypeClosestHit (run demoBackend demoContext rayTypeOps) 0 0 0 "ch").1
      = LLOResult.LLO_SUCCESS ∧
    (lloGeomTypeClosestHit (lloGeomTypeClosestHit (run demoBackend demoContext rayTypeOps)
      0 0 0 "ch").2 0 1 0 "ch").1 = LLOResult.LLO_SUCCESS ∧
    (lloGeomTypeClosestHit (lloGeomTypeClosestHit (lloGeomTypeClosestHit
      (run demoBackend demoContext rayTypeOps) 0 0 0 "ch").2 0 1 0 "ch").2 0 2 0 "ch").2.lastError
      = some LLOError.InvalidRayType :=
  have h := (C6_ray_type_binding (run demoBackend demoContext rayTypeOps) HitSlot.closestHit
    0 0 0 "ch" (GeomType.mk 16 [] [] [] none) rfl).2.2.2.2 (Program.mk 0 "ch")
    rfl rfl
  ⟨rfl, h.1, h.2.1, h.2.2.2⟩

/-! ### Bounds sources -/

/-- What a successful `lloUserGeomSetBoundsBuffer` on a user geometry does. -/
theorem setBoundsBuffer_success (llo : Context) (geomID bufferID tid : Int) (numPrims : Nat)
    (source : Option BoundsSource)
    (hg : llo.geoms.get geomID = Except.ok ⟨tid, .user numPrims source⟩)
    (h : (lloUserGeomSetBoundsBuffer llo geomID bufferID).1 = LLOResult.LLO_SUCCESS) :
    (lloUserGeomSetBoundsBuffer llo geomID bufferID).2
      = { llo with geoms := llo.geoms.set geomID ⟨tid, .user numPrims (some (.buffer bufferID))⟩ } := by
  unfold lloUserGeomSetBoundsBuffer at h ⊢
  simp only [hg] at h ⊢
  cases hb : llo.buffers.get bufferID with
  | error e => simp [hb, Context.fail] at h
  | ok b =>
    simp only [hb] at h ⊢
    cases source with
    | none => rfl
    | some src =>
      cases src with
      | buffer b0 => rfl
      | deviceProgram => simp [Context.fail] at h
      | hostCallback => simp [Context.fail] at h

/-- The consistency of bounds sources depends on the geometries and geometry
types only. -/
theorem oneBoundsSource_of_eq (llo llo1 : Context) (hg : llo1.geoms = llo.geoms)
    (ht : llo1.geomTypes = llo.geomTypes) (h : llo.oneBoundsSource) : llo1.oneBoundsSource := by
  intro geomID tid numPrims source gt h1 h2 h3
  rw [hg] at h1
  rw [ht] at h2
  exact h geomID tid numPrims source gt h1 h2 h3

/-- A failed operation keeps the bounds sources consistent. -/
theorem oneBoundsSource_fail (llo : Context) (e : LLOError) (h : llo.oneBoundsSource) :
    (llo.fail e).2.oneBoundsSource :=
  oneBoundsSource_of_eq llo _ rfl rfl h

/-- Storing a triangle geometry keeps the bounds sources consistent. -/
theorem oneBoundsSource_setTriangles (llo : Context) (id tid0 : Int)
    (v i : Option BufferBinding) (h : llo.oneBoundsSource) :
    Context.oneBoundsSource { llo with geoms := llo.geoms.set id ⟨tid0, .triangles v i⟩ } := by
  intro geomID tid numPrims source gt h1 h2 h3
  rcases HandleTable.get_set_cases _ _ _ _ _ h1 with ⟨-, hx⟩ | ⟨-, hx⟩
  · cases hx
  · exact h geomID tid numPrims source gt hx h2 h3

/-- Binding a hit program leaves the bounds program of a geometry type alone. -/
theorem GeomType.bind_boundsProg (gt : GeomType) (slot : HitSlot) (rayType : Nat) (prog : Program) :
    (gt.bind slot rayType prog).boundsProg = gt.boundsProg := by
  cases slot <;> rfl

/-- Every operation keeps the bounds sources consistent. -/
theorem step_oneBoundsSource (backend : Backend) (llo : Context) (op : Op)
    (h : llo.oneBoundsSource) : (step backend llo op).2.oneBoundsSource := by
  cases op with
  | alloc kind count =>
    cases kind
    case geoms =>
      intro geomID tid numPrims source gt h1 h2 h3
      have : (step backend llo (Op.alloc ResourceKind.geoms count)).2.geoms
          = llo.geoms.alloc count := rfl
      rw [this, HandleTable.get_alloc] at h1
      cases h1
    case geomTypes =>
      intro geomID tid numPrims source gt h1 h2 h3
      have : (step backend llo (Op.alloc ResourceKind.geomTypes count)).2.geomTypes
          = llo.geomTypes.alloc count := rfl
      rw [this, HandleTable.get_alloc] at h2
      cases h2
    all_goals exact oneBoundsSource_of_eq llo _ rfl rfl h
  | geomTypeCreate geomTypeID size =>
    simp only [step, lloGeomTypeCreate]
    split
    · intro geomID tid numPrims source gt h1 h2 h3
      rcases HandleTable.get_set_cases _ _ _ _ _ h2 with ⟨-, hx⟩ | ⟨-, hx⟩
      · subst hx
        simp at h3
      · exact h geomID tid numPrims source gt h1 hx h3
    · exact oneBoundsSource_fail llo _ h
  | geomTypeBind slot geomTypeID rayTypeID moduleID name =>
    simp only [step, Context.geomTypeBind]
    split
    · exact oneBoundsSource_fail llo _ h
    · rename_i gt0 hgt0
      split
      · exact oneBoundsSource_fail llo _ h
      · split
        · exact oneBoundsSource_fail llo _ h
        · intro geomID tid numPrims source gt h1 h2 h3
          rcases HandleTable.get_set_cases _ _ _ _ _ h2 with ⟨hid, hx⟩ | ⟨-, hx⟩
          · subst hx
            subst hid
            rw [GeomType.bind_boundsProg] at h3
            exact h geomID tid numPrims source gt0 h1 hgt0 h3
          · exact h geomID tid numPrims source gt h1 hx h3
  | geomTypeBoundsProgDevice geomTypeID moduleID name size =>
    simp only [step, lloGeomTypeBoundsProgDevice]
    split
    · exact oneBoundsSource_fail llo _ h
    · rename_i gt0 hgt0
      split
      · exact oneBoundsSource_fail llo _ h
      · split
        · exact oneBoundsSource_fail llo _ h
        · intro geomID tid numPrims source gt h1 h2 h3
          obtain ⟨slot, hslot, hf, hneg⟩ := HandleTable.get_map _ _ _ _ h1
          have hold : ∀ g, slot = Slot.created g → llo.geoms.get geomID = Except.ok g := by
            intro g hg
            rw [HandleTable.get_eq, if_neg hneg, hslot, hg]
          cases slot with
          | unset => simp [useDeviceBounds] at hf
          | reserved => simp [useDeviceBounds] at hf
          | created g =>
            obtain ⟨tid0, data⟩ := g
            cases data with
            | triangles v i => simp [useDeviceBounds] at hf
            | user n0 src0 =>
              simp only [useDeviceBounds] at hf
              by_cases ht : (tid0 == geomTypeID) = true
              · simp only [ht, if_true, Slot.created.injEq, Geom.mk.injEq, GeomData.user.injEq] at hf
                exact hf.2.2.symm
              · simp only [ht, Bool.false_eq_true, if_false, Slot.created.injEq, Geom.mk.injEq,
                  GeomData.user.injEq] at hf
                obtain ⟨h4, h5, h6⟩ := hf
                subst h4 h5 h6
                have hne : tid0 ≠ geomTypeID := by simpa using ht
                rcases HandleTable.get_set_cases _ _ _ _ _ h2 with ⟨hid, -⟩ | ⟨-, hx⟩
                · exact absurd hid hne
                · exact h geomID tid0 n0 src0 gt (hold _ rfl) hx h3
  | trianglesGeomCreate geomID0 geomTypeID =>
    simp only [step, lloTrianglesGeomCreate]
    split
    · split
      · exact oneBoundsSource_fail llo _ h
      · exact oneBoundsSource_setTriangles llo _ _ _ _ h
    · exact oneBoundsSource_fail llo _ h
  | userGeomCreate geomID0 geomTypeID numPrims0 =>
    simp only [step, lloUserGeomCreate]
    split
    · split
      · exact oneBoundsSource_fail llo _ h
      · rename_i gt0 hgt0
        intro geomID tid numPrims source gt h1 h2 h3
        rcases HandleTable.get_set_cases _ _ _ _ _ h1 with ⟨-, hx⟩ | ⟨-, hx⟩
        · simp only [Geom.mk.injEq, GeomData.user.injEq] at hx
          obtain ⟨h4, h5, h6⟩ := hx
          subst h4
          have : gt = gt0 := by
            have := h2.symm.trans hgt0
            injection this
          subst this
          rw [h6, h3]
          rfl
        · exact h geomID tid numPrims source gt hx h2 h3
    · exact oneBoundsSource_fail llo _ h
  | trianglesGeomSetVertexBuffer geomID0 bufferID count stride offset =>
    simp only [step, lloTrianglesGeomSetVertexBuffer]
    split
    · exact oneBoundsSource_fail llo _ h
    · split
      · exact oneBoundsSource_fail llo _ h
      · split
        · exact oneBoundsSource_fail llo _ h
        · exact oneBoundsSource_setTriangles llo _ _ _ _ h
  | trianglesGeomSetIndexBuffer geomID0 bufferID count stride offset =>
    simp only [step, lloTrianglesGeomSetIndexBuffer]
    split
    · exact oneBoundsSource_fail llo _ h
    · split
      · exact oneBoundsSource_fail llo _ h
      · split
        · exact oneBoundsSource_fail llo _ h
        · exact oneBoundsSource_setTriangles llo _ _ _ _ h
  | userGeomSetBoundsBuffer geomID0 bufferID =>
    simp only [step, lloUserGeomSetBoundsBuffer]
    split
    · exact oneBoundsSource_fail llo _ h
    · rename_i g hg
      split
      · exact oneBoundsSource_fail llo _ h
      · rename_i n0 src0 hdata
        split
        · exact oneBoundsSource_fail llo _ h
        · split
          · exact oneBoundsSource_fail llo _ h
          · exact oneBoundsSource_fail llo _ h
          · rename_i hnd hnh
            intro geomID tid numPrims source gt h1 h2 h3
            rcases HandleTable.get_set_cases _ _ _ _ _ h1 with ⟨-, hx⟩ | ⟨-, hx⟩
            · simp only [Geom.mk.injEq, GeomData.user.injEq] at hx
              obtain ⟨h4, h5, h6⟩ := hx
              have hg1 : llo.geoms.get geomID0 = Except.ok ⟨tid, .user n0 src0⟩ := by
                rw [hg]
                obtain ⟨t0, d0⟩ := g
                simp only at hdata h4
                rw [hdata, h4]
              have := h geomID0 tid n0 src0 gt hg1 h2 h3
              exact absurd this (hnd)
            · exact h geomID tid numPrims source gt hx h2 h3
  | setMaxInstancingDepth d => exact oneBoundsSource_of_eq llo _ rfl rfl h
  | setRayTypeCount n => exact oneBoundsSource_of_eq llo _ rfl rfl h
  | _ =>
    refine oneBoundsSource_of_eq llo _ ?_ ?_ h
    all_goals
      simp only [step, lloModuleCreate, lloBuildModules, lloRayGenCreate, lloMissProgCreate,
        lloLaunchParamsCreate, Context.bufferCreate, lloBufferDestroy, Context.groupCreate,
        lloInstanceGroupSetTransform, lloGroupAccelBuild, Context.buildInstanceGroup,
        Context.buildGeomGroup]
      repeat' split
      all_goals rfl

/-- Every history of operations keeps the bounds sources consistent. -/
theorem run_oneBoundsSource (backend : Backend) (llo : Context) (ops : List Op)
    (h : llo.oneBoundsSource) : (run backend llo ops).oneBoundsSource := by
  induction ops generalizing llo with
  | nil => exact h
  | cons op ops ih =>
    simp only [run, List.foldl_cons]
    exact ih _ (step_oneBoundsSource backend llo op h)

/-- A created context has no geometry, so its bounds sources are consistent. -/
theorem lloContextCreate_oneBoundsSource (backend : Backend) (deviceIDs : List Int)
    (llo : Context) (h : lloContextCreate backend deviceIDs = some llo) :
    llo.oneBoundsSource := by
  unfold lloContextCreate at h
  simp only at h
  intro geomID tid numPrims source gt h1
  split_ifs at h <;> (cases h; simp [HandleTable.get, HandleTable.lookup] at h1)

/-- C7: every user geometry holds its bounds source in a single tagged field, and
after every history of operations on a created context a user geometry whose
type declares a device bounds program has that program, and nothing else, as
its source: at most one source is set at any time.  After
`lloUserGeomSetBoundsBuffer` has set a bounds buffer on a user geometry, the
geometry's source is that buffer,
and an attempt to also set the device bounds program (of the geometry's type,
which is where the header puts that program) fails (`LLO_UNKNOWN_ERROR`) with
the last error ConflictingBoundsSource and changes nothing else: the geometry's
bounds-buffer binding is still in place. -/
theorem C7_conflicting_bounds_source (backend : Backend) (deviceIDs : List Int)
    (llo0 : Context) (hcreate : lloContextCreate backend deviceIDs = some llo0) (ops : List Op)
    (llo : Context) (geomID bufferID tid moduleID : Int)
    (programName : String) (geomDataSize numPrims : Nat) (source : Option BoundsSource)
    (gt : GeomType)
    (hg : llo.geoms.get geomID = Except.ok ⟨tid, .user numPrims source⟩)
    (hgt : llo.geomTypes.get tid = Except.ok gt)
    (hset : (lloUserGeomSetBoundsBuffer llo geomID bufferID).1 = LLOResult.LLO_SUCCESS) :
    (run backend llo0 ops).oneBoundsSource ∧
    (lloUserGeomSetBoundsBuffer llo geomID bufferID).2.geoms.get geomID
      = Except.ok ⟨tid, .user numPrims (some (.buffer bufferID))⟩ ∧
    lloGeomTypeBoundsProgDevice (lloUserGeomSetBoundsBuffer llo geomID bufferID).2
        tid moduleID programName geomDataSize
      = (LLOResult.LLO_UNKNOWN_ERROR,
          { (lloUserGeomSetBoundsBuffer llo geomID bufferID).2 with
              lastError := some LLOError.ConflictingBoundsSource }) ∧
    (lloGeomTypeBoundsProgDevice (lloUserGeomSetBoundsBuffer llo geomID bufferID).2
        tid moduleID programName geomDataSize).2.geoms.get geomID
      = Except.ok ⟨tid, .user numPrims (some (.buffer bufferID))⟩ := by
  have hllo1 := setBoundsBuffer_success llo geomID bufferID tid numPrims source hg hset
  have hget : (lloUserGeomSetBoundsBuffer llo geomID bufferID).2.geoms.get geomID
      = Except.ok ⟨tid, .user numPrims (some (.buffer bufferID))⟩ := by
    rw [hllo1]
    exact HandleTable.get_set_self _ _ _ (HandleTable.of_get _ _ _ hg).1
  have hgt1 : (lloUserGeomSetBoundsBuffer llo geomID bufferID).2.geomTypes.get tid
      = Except.ok gt := by
    rw [hllo1]; exact hgt
  have hany : (lloUserGeomSetBoundsBuffer llo geomID bufferID).2.geoms.slots.any
      (hasOtherBoundsSource tid) = true := by
    rw [List.any_eq_true]
    exact ⟨_, (HandleTable.of_get _ _ _ hget).2, by simp [hasOtherBoundsSource]⟩
  have hfail : lloGeomTypeBoundsProgDevice (lloUserGeomSetBoundsBuffer llo geomID bufferID).2
        tid moduleID programName geomDataSize
      = (LLOResult.LLO_UNKNOWN_ERROR,
          { (lloUserGeomSetBoundsBuffer llo geomID bufferID).2 with
              lastError := some LLOError.ConflictingBoundsSource }) := by
    unfold lloGeomTypeBoundsProgDevice
    simp only [hgt1, hany, if_true, Context.fail]
  refine ⟨run_oneBoundsSource backend llo0 ops
    (lloContextCreate_oneBoundsSource backend deviceIDs llo0 hcreate), hget, hfail, ?_⟩
  rw [hfail]
  exact hget

/-- C7, on a context with the user geometry 0 of type 0 and buffer 0: setting the
bounds buffer succeeds, setting the device bounds program `bounds` afterwards
fails with ConflictingBoundsSource, and geometry 0 still has buffer 0 as its
bounds source. -/
theorem C7_conflicting_bounds_source_witness :
    (lloUserGeomSetBoundsBuffer (run demoBackend demoContext userGeomOps) 0 0).1
      = LLOResult.LLO_SUCCESS ∧
    (lloGeomTypeBoundsProgDevice
        (lloUserGeomSetBoundsBuffer (run demoBackend demoContext userGeomOps) 0 0).2
        0 0 "bounds" 64).2.lastError = some LLOError.ConflictingBoundsSource ∧
    (lloGeomTypeBoundsProgDevice
        (lloUserGeomSetBoundsBuffer (run demoBackend demoContext userGeomOps) 0 0).2
        0 0 "bounds" 64).2.geoms.get 0
      = Except.ok (Geom.mk 0 (GeomData.user 10 (some (BoundsSource.buffer 0)))) :=
  have h := C7_conflicting_bounds_source demoBackend [] demoContext rfl userGeomOps
    (run demoBackend demoContext userGeomOps) 0 0 0 0
    "bounds" 64 10 none (GeomType.mk 16 [] [] [] none) rfl rfl (by decide)
  ⟨by decide, congrArg (fun r => r.2.lastError) h.2.2.1, h.2.2.2⟩

/-! ### Instancing depth -/

/-- A running maximum stays below a bound of its start and of every element. -/
theorem foldl_max_le (l : List Nat) (a b : Nat) (ha : a ≤ b) (h : ∀ x ∈ l, x ≤ b) :
    l.foldl max a ≤ b := by
  induction l generalizing a with
  | nil => simpa using ha
  | cons x l ih =>
    simp only [List.foldl_cons]
    exact ih _ (max_le ha (h x (List.mem_cons_self _ _)))
      (fun y hy => h y (List.mem_cons_of_mem _ hy))

/-- A running maximum is at least its start and every element. -/
theorem le_foldl_max (l : List Nat) (a : Nat) :
    a ≤ l.foldl max a ∧ ∀ x ∈ l, x ≤ l.foldl max a := by
  induction l generalizing a with
  | nil => simp
  | cons x l ih =>
    simp only [List.foldl_cons, List.mem_cons]
    refine ⟨le_trans (le_max_left a x) (ih _).1, ?_⟩
    rintro y (rfl | hy)
    · exact le_trans (le_max_right a y) (ih _).1
    · exact (ih _).2 y hy

/-- The depth computed with some fuel is at most that fuel. -/
theorem groupDepth_le (groups : HandleTable Group) (fuel : Nat) (groupID : Int) :
    groupDepth groups fuel groupID ≤ fuel := by
  induction fuel generalizing groupID with
  | zero => simp [groupDepth]
  | succ f ih =>
    unfold groupDepth
    split
    · omega
    · split
      · have := foldl_max_le ((List.map (groupDepth groups f) ‹Group›.children)) 0 f (by omega)
          (by
            intro x hx
            obtain ⟨c, -, rfl⟩ := List.mem_map.mp hx
            exact ih c)
        omega
      · omega

/-- Fuel that is not used up is enough: one more unit does not change the depth. -/
theorem groupDepth_stable (groups : HandleTable Group) (fuel : Nat) (groupID : Int)
    (h : groupDepth groups fuel groupID < fuel) :
    groupDepth groups (fuel + 1) groupID = groupDepth groups fuel groupID := by
  induction fuel generalizing groupID with
  | zero => omega
  | succ f ih =>
    rw [groupDepth] at h ⊢
    rw [groupDepth]
    cases hg : groups.get groupID with
    | error e => rfl
    | ok g =>
      simp only [hg] at h ⊢
      cases hk : g.kind with
      | instanceGroup =>
        simp only [hk] at h ⊢
        have hmap : List.map (groupDepth groups (f + 1)) g.children
            = List.map (groupDepth groups f) g.children := by
          apply List.map_congr_left
          intro c hc
          apply ih
          have := (le_foldl_max (List.map (groupDepth groups f) g.children) 0).2
            (groupDepth groups f c) (List.mem_map_of_mem _ hc)
          omega
        rw [hmap]
      | trianglesGeomGroup => rfl
      | userGeomGroup => rfl

/-- Fuel that is not used up is enough: no amount of further fuel changes the
depth. -/
theorem groupDepth_stable_add (groups : HandleTable Group) (fuel : Nat) (groupID : Int)
    (h : groupDepth groups fuel groupID < fuel) (k : Nat) :
    groupDepth groups (fuel + k) groupID = groupDepth groups fuel groupID := by
  induction k with
  | zero => rfl
  | succ k ih =>
    rw [← Nat.add_assoc, groupDepth_stable groups (fuel + k) groupID (by omega), ih]

/-- No operation but `lloSetMaxInstancingDepth` changes the maximum instancing
depth. -/
theorem step_maxInstancingDepth (backend : Backend) (llo : Context) (op : Op)
    (h : op.setsMaxInstancingDepth = false) :
    (step backend llo op).2.maxInstancingDepth = llo.maxInstancingDepth := by
  cases op with
  | setMaxInstancingDepth d => simp [Op.setsMaxInstancingDepth] at h
  | alloc kind count => cases kind <;> rfl
  | setRayTypeCount n => rfl
  | buildModules =>
    simp only [step, lloBuildModules]
    split <;> rfl
  | _ =>
    simp only [step, lloModuleCreate, lloRayGenCreate, lloMissProgCreate, lloLaunchParamsCreate,
      Context.bufferCreate, lloBufferDestroy, lloGeomTypeCreate, Context.geomTypeBind,
      lloGeomTypeBoundsProgDevice,
      lloTrianglesGeomCreate, lloUserGeomCreate, lloTrianglesGeomSetVertexBuffer,
      lloTrianglesGeomSetIndexBuffer, lloUserGeomSetBoundsBuffer, Context.groupCreate,
      lloInstanceGroupSetTransform, lloGroupAccelBuild, Context.buildInstanceGroup,
      Context.buildGeomGroup]
    repeat' split
    all_goals rfl

/-- A history without `lloSetMaxInstancingDepth` keeps the maximum instancing
depth. -/
theorem run_maxInstancingDepth (backend : Backend) (llo : Context) (ops : List Op)
    (h : ∀ op ∈ ops, op.setsMaxInstancingDepth = false) :
    (run backend llo ops).maxInstancingDepth = llo.maxInstancingDepth := by
  induction ops generalizing llo with
  | nil => rfl
  | cons op ops ih =>
    simp only [run, List.foldl_cons]
    have h1 := ih (step backend llo op).2 (fun o ho => h o (List.mem_cons_of_mem _ ho))
    simp only [run] at h1
    rw [h1]
    exact step_maxInstancingDepth backend llo op (h op (List.mem_cons_self _ _))

/-- A created context has the maximum instancing depth 1. -/
theorem lloContextCreate_maxInstancingDepth (backend : Backend) (deviceIDs : List Int)
    (llo : Context) (h : lloContextCreate backend deviceIDs = some llo) :
    llo.maxInstancingDepth = 1 := by
  unfold lloContextCreate at h
  simp only at h
  split_ifs at h <;> (cases h; rfl)

/-- The top-level build of an instance group whose children are built: it is
flagged exactly when the instancing depth exceeds the maximum, and otherwise
succeeds when the backend's builds do. -/
theorem build_instanceGroup (backend : Backend) (llo : Context) (groupID : Int) (g : Group)
    (childGroups : List Group)
    (hg : llo.groups.get groupID = Except.ok g) (hkind : g.kind = GroupKind.instanceGroup)
    (hchildren : llo.groups.getAll g.children = Except.ok childGroups)
    (hbuilt : ∀ c ∈ childGroups, c.isBuilt = true) :
    (llo.maxInstancingDepth < (llo.instancingDepth groupID : Int) →
      lloGroupAccelBuild backend llo groupID
        = (LLOResult.LLO_UNKNOWN_ERROR,
            { llo with lastError := some LLOError.InstancingDepthExceeded })) ∧
    ((llo.instancingDepth groupID : Int) ≤ llo.maxInstancingDepth →
      (∀ d instances, (backend.buildInstanceAccel d instances).isSome = true) →
      (lloGroupAccelBuild backend llo groupID).1 = LLOResult.LLO_SUCCESS) := by
  have hany : childGroups.any (fun c => !c.isBuilt) = false := by
    rw [List.any_eq_false]
    intro c hc
    simp [hbuilt c hc]
  unfold lloGroupAccelBuild
  simp only [hg, hkind]
  unfold Context.buildInstanceGroup
  simp only [hchildren, hany]
  refine ⟨?_, ?_⟩
  · intro h
    simp [h, Context.fail]
  · intro h hbackend
    have h1 : ¬ llo.maxInstancingDepth < (llo.instancingDepth groupID : Int) := by omega
    simp [h1, hbackend, Context.succeed]

/-- C8: a created context has the maximum instancing depth 1 and keeps it through
every history of operations without `lloSetMaxInstancingDepth`, which sets it to
the value given.  Building an instance group whose children are built and whose
nesting depth of instance groups equals the configured maximum succeeds (when
the backend's builds do); building one whose depth is the maximum plus one fails
(`LLO_UNKNOWN_ERROR`) with the last error InstancingDepthExceeded and changes
nothing else.  The depth is that of the hierarchy: when it is at most the number
of group slots, as in every hierarchy without a cycle, it is the same for any
larger bound on the recursion. -/
theorem C8_instancing_depth (backend : Backend) (deviceIDs : List Int) (llo0 : Context)
    (hcreate : lloContextCreate backend deviceIDs = some llo0)
    (ops : List Op) (hops : ∀ op ∈ ops, op.setsMaxInstancingDepth = false)
    (llo : Context) (groupID : Int) (g : Group) (childGroups : List Group)
    (hg : llo.groups.get groupID = Except.ok g) (hkind : g.kind = GroupKind.instanceGroup)
    (hchildren : llo.groups.getAll g.children = Except.ok childGroups)
    (hbuilt : ∀ c ∈ childGroups, c.isBuilt = true) :
    llo0.maxInstancingDepth = 1 ∧
    (run backend llo0 ops).maxInstancingDepth = 1 ∧
    (∀ d, (lloSetMaxInstancingDepth llo d).1 = LLOResult.LLO_SUCCESS ∧
      (lloSetMaxInstancingDepth llo d).2.maxInstancingDepth = d) ∧
    ((llo.instancingDepth groupID : Int) = llo.maxInstancingDepth →
      (∀ d instances, (backend.buildInstanceAccel d instances).isSome = true) →
      (lloGroupAccelBuild backend llo groupID).1 = LLOResult.LLO_SUCCESS) ∧
    ((llo.instancingDepth groupID : Int) = llo.maxInstancingDepth + 1 →
      lloGroupAccelBuild backend llo groupID
        = (LLOResult.LLO_UNKNOWN_ERROR,
            { llo with lastError := some LLOError.InstancingDepthExceeded })) ∧
    (llo.instancingDepth groupID ≤ llo.groups.size →
      ∀ k, groupDepth llo.groups (llo.groups.size + 1 + k) groupID
        = llo.instancingDepth groupID) := by
  have h1 := lloContextCreate_maxInstancingDepth backend deviceIDs llo0 hcreate
  have hb := build_instanceGroup backend llo groupID g childGroups hg hkind hchildren hbuilt
  refine ⟨h1, ?_, fun d => ⟨rfl, rfl⟩, ?_, ?_, ?_⟩
  · rw [run_maxInstancingDepth backend llo0 ops hops, h1]
  · intro h hbackend
    exact hb.2 (by omega) hbackend
  · intro h
    exact hb.1 (by omega)
  · intro h k
    exact groupDepth_stable_add llo.groups (llo.groups.size + 1) groupID
      (Nat.lt_succ_of_le h) k

/-- C8, on a created context with the default maximum 1: the instance group 1
over a built bottom-level group has depth 1 and builds; the instance group 2
over group 1 has depth 2 and is flagged with InstancingDepthExceeded. -/
theorem C8_instancing_depth_witness :
    (run demoBackend demoContext nestedOps).maxInstancingDepth = 1 ∧
    (lloGroupAccelBuild demoBackend (run demoBackend demoContext nestedOps) 1).1
      = LLOResult.LLO_SUCCESS ∧
    (lloGroupAccelBuild demoBackend (run demoBackend demoContext nestedOps) 2).2.lastError
      = some LLOError.InstancingDepthExceeded :=
  have h1 := C8_instancing_depth demoBackend [] demoContext rfl nestedOps (by decide)
    (run demoBackend demoContext nestedOps) 1
    ((run demoBackend demoContext nestedOps).groupOf 1)
    [(run demoBackend demoContext nestedOps).groupOf 0] rfl rfl rfl (by decide)
  have h2 := C8_instancing_depth demoBackend [] demoContext rfl nestedOps (by decide)
    (run demoBackend demoContext nestedOps) 2
    ((run demoBackend demoContext nestedOps).groupOf 2)
    [(run demoBackend demoContext nestedOps).groupOf 1] rfl rfl rfl (by decide)
  ⟨h1.2.1, h1.2.2.2.1 (by decide) (fun _ _ => rfl),
    (congrArg (fun r => r.2.lastError) (h2.2.2.2.2.1 (by decide)))⟩

/-! ### Instance transforms -/

/-- What a successful `lloInstanceGroupSetTransform` does. -/
theorem setTransform_success (llo : Context) (groupID childID : Int) (xfm : Xfm)
    (h : (lloInstanceGroupSetTransform llo groupID childID xfm).1 = LLOResult.LLO_SUCCESS) :
    ∃ g, llo.groups.get groupID = Except.ok g ∧ g.kind = GroupKind.instanceGroup ∧
      0 ≤ childID ∧ childID < g.children.length ∧
      (lloInstanceGroupSetTransform llo groupID childID xfm).2
        = { llo with groups := llo.groups.set groupID (g.withTransform childID.toNat xfm) } := by
  cases hg : llo.groups.get groupID with
  | error e => simp [lloInstanceGroupSetTransform, hg, Context.fail] at h
  | ok g =>
    cases hk : g.kind with
    | instanceGroup =>
      by_cases hc : 0 ≤ childID ∧ childID < g.children.length
      · refine ⟨g, rfl, hk, hc.1, hc.2, ?_⟩
        simp [lloInstanceGroupSetTransform, hg, hk, hc, Context.succeed]
      · simp [lloInstanceGroupSetTransform, hg, hk, hc, Context.fail] at h
    | trianglesGeomGroup => simp [lloInstanceGroupSetTransform, hg, hk, Context.fail] at h
    | userGeomGroup => simp [lloInstanceGroupSetTransform, hg, hk, Context.fail] at h

/-- What a successful build of an instance group leaves under the group's ID. -/
theorem buildInstanceGroup_success (backend : Backend) (llo : Context) (groupID : Int)
    (g : Group) (hg : llo.groups.get groupID = Except.ok g)
    (hkind : g.kind = GroupKind.instanceGroup)
    (h : (lloGroupAccelBuild backend llo groupID).1 = LLOResult.LLO_SUCCESS) :
    ∃ childGroups built,
      (lloGroupAccelBuild backend llo groupID).2.groups.get groupID = Except.ok built ∧
      built.children = g.children ∧ built.state = GroupState.Built ∧
      built.instances = (List.range llo.devices.length).map (instanceArray g childGroups) := by
  unfold lloGroupAccelBuild at h ⊢
  simp only [hg, hkind] at h ⊢
  unfold Context.buildInstanceGroup at h ⊢
  cases hc : llo.groups.getAll g.children with
  | error e => simp [hc, Context.fail] at h
  | ok childGroups =>
    simp only [hc] at h ⊢
    split_ifs at h ⊢ <;> first | (simp [Context.fail] at h; done) | skip
    refine ⟨childGroups, _,
      HandleTable.get_set_self _ _ _ (HandleTable.of_get _ _ _ hg).1, ?_, ?_, ?_⟩ <;> rfl

/-- A child that no set of a sequence names keeps its transform. -/
theorem transformsAfter_of_not_mem (transforms : Nat → Xfm) (sets : List (Int × Xfm)) (j : Nat)
    (h : ∀ p ∈ sets, p.1.toNat ≠ j) : transformsAfter transforms sets j = transforms j := by
  unfold transformsAfter
  induction sets generalizing transforms with
  | nil => rfl
  | cons p rest ih =>
    rw [List.foldl_cons, ih _ (fun q hq => h q (List.mem_cons_of_mem _ hq))]
    have hp : j ≠ p.1.toNat := fun e => h p (List.mem_cons_self _ _) e.symm
    simp [hp]

/-- A child holds the transform of the last set of a sequence that names it. -/
theorem transformsAfter_last (transforms : Nat → Xfm) (before after : List (Int × Xfm))
    (childID : Int) (xfm : Xfm) (h : ∀ p ∈ after, p.1.toNat ≠ childID.toNat) :
    transformsAfter transforms (before ++ (childID, xfm) :: after) childID.toNat = xfm := by
  have h1 := transformsAfter_of_not_mem
    (fun j => if j = childID.toNat then xfm
      else before.foldl (fun t p => fun j => if j = p.1.toNat then p.2 else t j) transforms j)
    after childID.toNat h
  unfold transformsAfter at h1 ⊢
  rw [List.foldl_append, List.foldl_cons, h1]
  simp

/-- What a sequence of sets with child IDs in range leaves under the ID of an
instance group: the group with the transforms replaced, set by set. -/
theorem run_setTransformOps (backend : Backend) (llo : Context) (groupID : Int) (g : Group)
    (sets : List (Int × Xfm)) (hg : llo.groups.get groupID = Except.ok g)
    (hkind : g.kind = GroupKind.instanceGroup)
    (hsets : ∀ p ∈ sets, 0 ≤ p.1 ∧ p.1 < g.children.length) :
    ∃ g1, (run backend llo (setTransformOps groupID sets)).groups.get groupID = Except.ok g1 ∧
      g1.kind = GroupKind.instanceGroup ∧ g1.children = g.children ∧
      g1.transforms = transformsAfter g.transforms sets ∧
      (run backend llo (setTransformOps groupID sets)).devices = llo.devices := by
  induction sets generalizing llo g with
  | nil => exact ⟨g, hg, hkind, rfl, rfl, rfl⟩
  | cons p rest ih =>
    have hp := hsets p (List.mem_cons_self _ _)
    have hstep : (step backend llo (Op.instanceGroupSetTransform groupID p.1 p.2)).2
        = { llo with groups := llo.groups.set groupID (g.withTransform p.1.toNat p.2) } := by
      simp [step, lloInstanceGroupSetTransform, hg, hkind, hp, Context.succeed]
    have hg1 : (step backend llo (Op.instanceGroupSetTransform groupID p.1 p.2)).2.groups.get groupID
        = Except.ok (g.withTransform p.1.toNat p.2) := by
      rw [hstep]
      exact HandleTable.get_set_self _ _ _ (HandleTable.of_get _ _ _ hg).1
    obtain ⟨g1, h1, h2, h3, h4, h5⟩ := ih (step backend llo (Op.instanceGroupSetTransform groupID
      p.1 p.2)).2 (g.withTransform p.1.toNat p.2) hg1 hkind
      (fun q hq => hsets q (List.mem_cons_of_mem _ hq))
    refine ⟨g1, h1, h2, h3, ?_, ?_⟩
    · rw [h4]
      rfl
    · have hrun : run backend llo (setTransformOps groupID (p :: rest))
          = run backend (step backend llo (Op.instanceGroupSetTransform groupID p.1 p.2)).2
              (setTransformOps groupID rest) := rfl
      rw [hrun, h5, hstep]

/-- C9 (spec-modelled): the top-level build writes each child's transform into
the instance array as it was given.  After any sequence of
`lloInstanceGroupSetTransform` calls on an instance group, each with a child ID
of the group, a successful build of the group leaves, for every device, an
instance array with one instance per child, in child order, in which the
instance of child `k` holds the twelve floats of the last call for child `k`,
unchanged and in the same order, whatever was set for other children before
or after it; the instance of a child for which no call was made holds the
twelve floats the group held for it before. -/
theorem C9_instance_transform (backend : Backend) (llo : Context) (groupID : Int) (g : Group)
    (sets : List (Int × Xfm))
    (hg : llo.groups.get groupID = Except.ok g)
    (hkind : g.kind = GroupKind.instanceGroup)
    (hsets : ∀ p ∈ sets, 0 ≤ p.1 ∧ p.1 < g.children.length)
    (hbuild : (lloGroupAccelBuild backend (run backend llo (setTransformOps groupID sets))
      groupID).1 = LLOResult.LLO_SUCCESS) :
    ∃ built,
      (lloGroupAccelBuild backend (run backend llo (setTransformOps groupID sets))
        groupID).2.groups.get groupID = Except.ok built ∧
      built.children = g.children ∧
      built.instances.length = llo.devices.length ∧
      ∀ array ∈ built.instances, array.length = g.children.length ∧
        ∀ j, j < g.children.length →
          ∃ inst, array[j]? = some inst ∧ inst.instanceId = j ∧
            (∀ (childID : Int) (xfm : Xfm) (before after : List (Int × Xfm)),
              sets = before ++ (childID, xfm) :: after → (∀ p ∈ after, p.1 ≠ childID) →
              j = childID.toNat → ∀ i : Fin 12, inst.transform i = xfm i) ∧
            ((∀ p ∈ sets, p.1.toNat ≠ j) → ∀ i : Fin 12, inst.transform i = g.transforms j i) := by
  obtain ⟨g1, hg1, hkind1, hchildren1, htrans1, hdev⟩ :=
    run_setTransformOps backend llo groupID g sets hg hkind hsets
  obtain ⟨childGroups, built, hget, hchildren, -, hinst⟩ :=
    buildInstanceGroup_success backend _ groupID _ hg1 hkind1 hbuild
  refine ⟨built, hget, hchildren.trans hchildren1, ?_, ?_⟩
  · rw [hinst, List.length_map, List.length_range, hdev]
  · intro array harray
    rw [hinst] at harray
    obtain ⟨d, -, rfl⟩ := List.mem_map.mp harray
    have hlen : (instanceArray g1 childGroups d).length = g.children.length := by
      simp [instanceArray, hchildren1]
    refine ⟨hlen, ?_⟩
    intro j hj
    have htr : (instanceArray g1 childGroups d)[j].transform
        = transformsAfter g.transforms sets j := by
      simp [instanceArray, htrans1]
    refine ⟨_, List.getElem?_eq_getElem (by rw [hlen]; exact hj), ?_, ?_, ?_⟩
    · simp [instanceArray]
    · intro childID xfm before after hsplit hafter hjk i
      have hc := hsets (childID, xfm) (by rw [hsplit]; simp)
      have hafter1 : ∀ p ∈ after, p.1.toNat ≠ childID.toNat := by
        intro p hp
        have hp1 := hsets p (by rw [hsplit]; simp [hp])
        have hp2 := hafter p hp
        have hc0 : 0 ≤ childID := hc.1
        omega
      rw [htr, hsplit, hjk, transformsAfter_last _ _ _ _ _ hafter1]
    · intro hnone i
      rw [htr, transformsAfter_of_not_mem _ _ _ hnone]

/-- C9, on the history `twoInstancesOps` followed by the sets `demoSets`: the
build leaves, for each of the two devices, an instance array whose instance 1
holds the floats `100, 101, ..., 111` set for child 1 and whose instance 0 holds
the floats `50, 51, ..., 61` of the last set for child 0. -/
theorem C9_instance_transform_witness :
    (∀ p ∈ demoSets, 0 ≤ p.1 ∧
      p.1 < ((run demoBackend demoContext twoInstancesOps).groupOf 1).children.length) ∧
    (lloGroupAccelBuild demoBackend
      (run demoBackend (run demoBackend demoContext twoInstancesOps) (setTransformOps 1 demoSets))
      1).1 = LLOResult.LLO_SUCCESS ∧
    ((lloGroupAccelBuild demoBackend
        (run demoBackend (run demoBackend demoContext twoInstancesOps)
          (setTransformOps 1 demoSets)) 1).2.groupOf 1).instances.map
        (fun array => array.map (fun inst => (List.finRange 12).map inst.transform))
      = [[[50, 51, 52, 53, 54, 55, 56, 57, 58, 59, 60, 61],
          [100, 101, 102, 103, 104, 105, 106, 107, 108, 109, 110, 111]],
         [[50, 51, 52, 53, 54, 55, 56, 57, 58, 59, 60, 61],
          [100, 101, 102, 103, 104, 105, 106, 107, 108, 109, 110, 111]]] ∧
    ∃ built, (lloGroupAccelBuild demoBackend
        (run demoBackend (run demoBackend demoContext twoInstancesOps)
          (setTransformOps 1 demoSets)) 1).2.groups.get 1 = Except.ok built ∧
      built.instances.length = 2 ∧
      ∀ array ∈ built.instances,
        (∃ inst, array[1]? = some inst ∧ ∀ i : Fin 12, inst.transform i = 100 + i.val) ∧
        (∃ inst, array[0]? = some inst ∧ ∀ i : Fin 12, inst.transform i = 50 + i.val) := by
  obtain ⟨built, hget, -, hlen, harr⟩ :=
    C9_instance_transform demoBackend (run demoBackend demoContext twoInstancesOps) 1
      ((run demoBackend demoContext twoInstancesOps).groupOf 1) demoSets rfl (by decide)
      (by decide) (by decide)
  refine ⟨by decide, by decide, by decide, built, hget, hlen, ?_⟩
  intro array harray
  obtain ⟨-, hall⟩ := harr array harray
  obtain ⟨inst1, h1, -, ht1, -⟩ := hall 1 (by decide)
  obtain ⟨inst0, h0, -, ht0, -⟩ := hall 0 (by decide)
  refine ⟨⟨inst1, h1, ?_⟩, ⟨inst0, h0, ?_⟩⟩
  · exact ht1 1 (fun i => 100 + i.val) [(0, fun i => i.val)] [(0, fun i => 50 + i.val)] rfl
      (by decide) rfl
  · exact ht0 0 (fun i => 50 + i.val) [(0, fun i => i.val), (1, fun i => 100 + i.val)] [] rfl
      (by decide) rfl

/-! ### `parallel_for` -/

/-- The loop of `serial_for` runs the task function on the remaining indices in
ascending order. -/
theorem common.serial_for_loop_eq {σ : Type} (nTasks : Nat) (f : Nat → σ → σ)
    (taskIndex : Nat) (s : σ) :
    common.serial_for.loop nTasks f taskIndex s
      = (List.range' taskIndex (nTasks - taskIndex)).foldl (fun t i => f i t) s := by
  generalize hk : nTasks - taskIndex = k
  induction k generalizing taskIndex s with
  | zero =>
    rw [common.serial_for.loop, if_neg (by omega)]
    rfl
  | succ k ih =>
    rw [common.serial_for.loop, if_pos (by omega), ih (taskIndex + 1) _ (by omega)]
    rfl

/-- The function `serial_for` runs the task function on `0, 1, ..., nTasks - 1` in
ascending order. -/
theorem common.serial_for_eq {σ : Type} (nTasks : Nat) (f : Nat → σ → σ) (s : σ) :
    common.serial_for nTasks f s = (List.range nTasks).foldl (fun t i => f i t) s := by
  unfold common.serial_for
  rw [common.serial_for_loop_eq, List.range_eq_range']
  rfl

/-- Whatever the variant, `parallel_for` runs the task function along some
ordering of `0, 1, ..., nTasks - 1`. -/
theorem common.parallel_for_order {σ : Type} (OWL_HAVE_TBB : Bool)
    (schedule : Nat → Nat → List Nat)
    (hschedule : ∀ first last, (schedule first last).Perm (List.range' first (last - first)))
    (nTasks : Nat) (f : Nat → σ → σ) (s : σ) :
    ∃ order : List Nat, order.Perm (List.range nTasks) ∧
      common.parallel_for OWL_HAVE_TBB schedule nTasks f s = order.foldl (fun t i => f i t) s := by
  unfold common.parallel_for
  cases OWL_HAVE_TBB with
  | false =>
    exact ⟨List.range nTasks, List.Perm.refl _, by simp [common.serial_for_eq]⟩
  | true =>
    simp only [if_true]
    by_cases h0 : nTasks = 0
    · subst h0
      exact ⟨[], by simp, by simp⟩
    · by_cases h1 : nTasks = 1
      · subst h1
        exact ⟨[0], by simp [List.range_succ], by simp⟩
      · refine ⟨schedule 0 nTasks, ?_, by simp [h0, h1, common.tbb_parallel_for]⟩
        have := hschedule 0 nTasks
        rwa [Nat.sub_zero, ← List.range_eq_range'] at this

/-- C10: for every task count `n` and task function `f`, in both variants and
under every schedule of `tbb::parallel_for`, `parallel_for(n, f)` runs `f` along
some ordering of the indices `0, ..., n-1`: `f` is invoked exactly once with
each index in `[0, n)` and with no other index, in an order that depends on the
schedule; for `n = 0` it invokes `f` no times and for `n = 1` once, with
index 0. -/
theorem C10_parallel_for_each_index_once (OWL_HAVE_TBB : Bool)
    (schedule : Nat → Nat → List Nat)
    (hschedule : ∀ first last, (schedule first last).Perm (List.range' first (last - first)))
    (n : Nat) :
    (∀ (σ : Type) (f : Nat → σ → σ) (s : σ), ∃ order : List Nat, order.Perm (List.range n) ∧
      common.parallel_for OWL_HAVE_TBB schedule n f s = order.foldl (fun t i => f i t) s) ∧
    (common.parallel_for OWL_HAVE_TBB schedule n common.recordIndex []).Perm (List.range n) ∧
    (∀ i, (common.parallel_for OWL_HAVE_TBB schedule n common.recordIndex []).count i
      = if i < n then 1 else 0) ∧
    common.parallel_for OWL_HAVE_TBB schedule 0 common.recordIndex [] = [] ∧
    common.parallel_for OWL_HAVE_TBB schedule 1 common.recordIndex [] = [0] := by
  have hlog : ∀ m, ∃ order : List Nat, order.Perm (List.range m) ∧
      common.parallel_for OWL_HAVE_TBB schedule m common.recordIndex [] = order := by
    intro m
    obtain ⟨order, hperm, heq⟩ :=
      common.parallel_for_order OWL_HAVE_TBB schedule hschedule m common.recordIndex []
    refine ⟨order, hperm, ?_⟩
    rw [heq]
    have := foldl_append_singleton order []
    simpa [common.recordIndex] using this
  refine ⟨fun σ f s => common.parallel_for_order OWL_HAVE_TBB schedule hschedule n f s,
    ?_, ?_, ?_, ?_⟩
  · obtain ⟨order, hperm, heq⟩ := hlog n
    rw [heq]; exact hperm
  · intro i
    obtain ⟨order, hperm, heq⟩ := hlog n
    rw [heq, hperm.count_eq]
    by_cases hi : i < n
    · rw [if_pos hi]
      exact List.count_eq_one_of_mem (List.nodup_range n) (List.mem_range.mpr hi)
    · rw [if_neg hi]
      exact List.count_eq_zero_of_not_mem (fun h => hi (List.mem_range.mp h))
  · obtain ⟨order, hperm, heq⟩ := hlog 0
    rw [heq]
    simpa using hperm
  · obtain ⟨order, hperm, heq⟩ := hlog 1
    rw [heq]
    have : order.Perm [0] := by simpa [List.range_succ] using hperm
    exact List.perm_singleton.mp this

/-- C10, with TBB and a scheduler that starts the tasks in descending order:
three tasks are run once each, in the order 2, 1, 0. -/
theorem C10_parallel_for_each_index_once_witness :
    (common.parallel_for true (fun first last => (List.range' first (last - first)).reverse) 3
      common.recordIndex []).Perm (List.range 3) ∧
    common.parallel_for true (fun first last => (List.range' first (last - first)).reverse) 3
      common.recordIndex [] = [2, 1, 0] :=
  ⟨(C10_parallel_for_each_index_once true
    (fun first last => (List.range' first (last - first)).reverse)
    (fun _ _ => List.reverse_perm _) 3).2.1, by decide⟩

/-! ### Blocked loops and `serial_for` -/

/-- Block `k` exists exactly when it starts before `end`. -/
theorem common.ceilBlocks_lt_iff (begin end_ blockSize k : Nat) (hbs : 0 < blockSize) :
    k < common.ceilBlocks begin end_ blockSize ↔ begin + k * blockSize < end_ := by
  unfold common.ceilBlocks
  rw [Nat.lt_iff_add_one_le, Nat.le_div_iff_mul_le hbs, Nat.add_mul, Nat.one_mul]
  omega

/-- A non-empty range has one block more than the range that starts one block
later. -/
theorem common.ceilBlocks_step (begin end_ blockSize : Nat) (hbs : 0 < blockSize)
    (h : begin < end_) :
    common.ceilBlocks begin end_ blockSize
      = common.ceilBlocks (begin + blockSize) end_ blockSize + 1 := by
  apply Nat.le_antisymm
  · by_contra hlt
    have h1 : common.ceilBlocks (begin + blockSize) end_ blockSize + 1
        < common.ceilBlocks begin end_ blockSize := by omega
    have h2 := (common.ceilBlocks_lt_iff begin end_ blockSize _ hbs).mp h1
    have h3 : ¬ (common.ceilBlocks (begin + blockSize) end_ blockSize
        < common.ceilBlocks (begin + blockSize) end_ blockSize) := lt_irrefl _
    rw [common.ceilBlocks_lt_iff _ _ _ _ hbs] at h3
    rw [Nat.add_mul, Nat.one_mul] at h2
    omega
  · rw [Nat.add_one_le_iff, common.ceilBlocks_lt_iff _ _ _ _ hbs]
    by_cases h0 : common.ceilBlocks (begin + blockSize) end_ blockSize = 0
    · rw [h0]; omega
    · have h1 : common.ceilBlocks (begin + blockSize) end_ blockSize - 1
          < common.ceilBlocks (begin + blockSize) end_ blockSize := by omega
      rw [common.ceilBlocks_lt_iff _ _ _ _ hbs] at h1
      have h2 : (common.ceilBlocks (begin + blockSize) end_ blockSize - 1) * blockSize + blockSize
          = common.ceilBlocks (begin + blockSize) end_ blockSize * blockSize := by
        conv_rhs => rw [show common.ceilBlocks (begin + blockSize) end_ blockSize
          = (common.ceilBlocks (begin + blockSize) end_ blockSize - 1) + 1 by omega]
        rw [Nat.add_mul, Nat.one_mul]
      omega

/-- An empty range has no block. -/
theorem common.ceilBlocks_eq_zero (begin end_ blockSize : Nat) (hbs : 0 < blockSize)
    (h : end_ ≤ begin) : common.ceilBlocks begin end_ blockSize = 0 := by
  by_contra h0
  have h1 : 0 < common.ceilBlocks begin end_ blockSize := by omega
  rw [common.ceilBlocks_lt_iff _ _ _ _ hbs] at h1
  omega

/-- The blocks of a non-empty range: its first block, then the blocks of the range
that starts one block later. -/
theorem common.blocksOfRange_step (begin end_ blockSize : Nat) (hbs : 0 < blockSize)
    (h : begin < end_) :
    common.blocksOfRange begin end_ blockSize
      = (begin, min (begin + blockSize) end_)
          :: common.blocksOfRange (begin + blockSize) end_ blockSize := by
  unfold common.blocksOfRange
  rw [common.ceilBlocks_step begin end_ blockSize hbs h, List.range_succ_eq_map, List.map_cons,
    List.map_map]
  congr 1
  · simp
  · apply List.map_congr_left
    intro k _
    simp only [Function.comp, Nat.succ_eq_add_one]
    have e1 : begin + (k + 1) * blockSize = begin + blockSize + k * blockSize := by
      rw [Nat.add_mul, Nat.one_mul]; omega
    have e2 : begin + (k + 1 + 1) * blockSize = begin + blockSize + (k + 1) * blockSize := by
      rw [Nat.add_mul (k + 1) 1, Nat.one_mul]; omega
    rw [e1, e2]

/-- With `end + blockSize` within `size_t` nothing wraps, and the loop of
`serial_for_blocked`, given enough fuel, ends after running the task function on
the blocks of the remaining range, in order. -/
theorem common.serial_for_blocked_loop_eq {σ : Type} (end_ blockSize : Nat)
    (f : Nat → Nat → σ → σ) (hbs : 0 < blockSize) (hmax : end_ + blockSize ≤ common.SIZE_MAX)
    (fuel block_begin : Nat) (s : σ)
    (hfuel : common.ceilBlocks block_begin end_ blockSize < fuel) :
    common.serial_for_blocked.loop end_ blockSize f fuel block_begin s
      = some ((common.blocksOfRange block_begin end_ blockSize).foldl
          (fun t c => f c.1 c.2 t) s) := by
  induction fuel generalizing block_begin s with
  | zero => omega
  | succ fuel ih =>
    unfold common.serial_for_blocked.loop
    by_cases h : block_begin < end_
    · have hw : common.size_t (block_begin + blockSize) = block_begin + blockSize := by
        unfold common.size_t
        unfold common.SIZE_MAX at hmax
        exact Nat.mod_eq_of_lt (by omega)
      rw [if_pos h, hw, common.blocksOfRange_step block_begin end_ blockSize hbs h,
        List.foldl_cons]
      apply ih
      rw [common.ceilBlocks_step block_begin end_ blockSize hbs h] at hfuel
      omega
    · rw [if_neg h]
      have h0 := common.ceilBlocks_eq_zero block_begin end_ blockSize hbs (by omega)
      simp [common.blocksOfRange, h0]

/-- A value within `size_t` is not changed by the conversion. -/
theorem common.size_t_of_le (x : Nat) (h : x ≤ common.SIZE_MAX) : common.size_t x = x := by
  unfold common.size_t
  unfold common.SIZE_MAX at h
  exact Nat.mod_eq_of_lt (by omega)

/-- The `size_t` difference is the exact one when it does not go below zero. -/
theorem common.size_t_sub_of_le (a b : Nat) (hab : b ≤ a) (ha : a ≤ common.SIZE_MAX) :
    common.size_t.sub a b = a - b := by
  unfold common.size_t.sub
  rw [common.size_t_of_le a ha, common.size_t_of_le b (by omega)]
  unfold common.SIZE_MAX at ha
  omega

/-- On a range with `begin <= end` and `end + blockSize` within `size_t`, the
`numBlocks` of `parallel_for_blocked` is the exact number of blocks. -/
theorem common.numBlocks_eq_ceilBlocks (begin end_ blockSize : Nat) (hle : begin ≤ end_)
    (hbs : 0 < blockSize) (hmax : end_ + blockSize ≤ common.SIZE_MAX) :
    common.parallel_for_blocked.numBlocks begin end_ blockSize
      = common.ceilBlocks begin end_ blockSize := by
  unfold common.parallel_for_blocked.numBlocks common.ceilBlocks
  simp only
  rw [common.size_t_sub_of_le end_ begin hle (by omega),
    common.size_t_of_le (end_ - begin + blockSize) (by omega),
    common.size_t_sub_of_le _ 1 (by omega) (by omega)]

/-- On such a range the block `parallel_for_blocked` computes for an ID below the
number of blocks is the exact one. -/
theorem common.block_eq (begin end_ blockSize k : Nat) (hbs : 0 < blockSize)
    (hmax : end_ + blockSize ≤ common.SIZE_MAX)
    (hk : k < common.ceilBlocks begin end_ blockSize) :
    common.parallel_for_blocked.block begin end_ blockSize k
      = (begin + k * blockSize, min (begin + (k + 1) * blockSize) end_) := by
  have h1 := (common.ceilBlocks_lt_iff begin end_ blockSize k hbs).mp hk
  unfold common.parallel_for_blocked.block
  simp only
  rw [common.size_t_of_le (k * blockSize) (by omega),
    common.size_t_of_le (begin + k * blockSize) (by omega),
    common.size_t_of_le (begin + k * blockSize + blockSize) (by omega)]
  have e : begin + (k + 1) * blockSize = begin + k * blockSize + blockSize := by
    rw [Nat.add_mul, Nat.one_mul]; omega
  rw [e]

/-- Whatever the range, `parallel_for_blocked` runs the task function on the
blocks of some ordering of the IDs `0, ..., numBlocks - 1`. -/
theorem common.parallel_for_blocked_calls {σ : Type} (OWL_HAVE_TBB : Bool)
    (schedule : Nat → Nat → List Nat)
    (hschedule : ∀ first last, (schedule first last).Perm (List.range' first (last - first)))
    (begin end_ blockSize : Nat) (hbs : blockSize ≠ 0) (f : Nat → Nat → σ → σ) (s : σ) :
    ∃ order : List Nat,
      order.Perm (List.range (common.parallel_for_blocked.numBlocks begin end_ blockSize)) ∧
      common.parallel_for_blocked OWL_HAVE_TBB schedule begin end_ blockSize f s
        = some ((order.map (common.parallel_for_blocked.block begin end_ blockSize)).foldl
            (fun t c => f c.1 c.2 t) s) := by
  obtain ⟨order, hperm, heq⟩ := common.parallel_for_order OWL_HAVE_TBB schedule hschedule
    (common.parallel_for_blocked.numBlocks begin end_ blockSize)
    (fun blockID => f (common.parallel_for_blocked.block begin end_ blockSize blockID).1
      (common.parallel_for_blocked.block begin end_ blockSize blockID).2) s
  refine ⟨order, hperm, ?_⟩
  unfold common.parallel_for_blocked
  rw [if_neg hbs, heq, List.foldl_map]

/-- On such a range the blocks of the IDs `0, ..., numBlocks - 1` are the blocks
of the range. -/
theorem common.blocksOfRange_eq_map_block (begin end_ blockSize : Nat) (hle : begin ≤ end_)
    (hbs : 0 < blockSize) (hmax : end_ + blockSize ≤ common.SIZE_MAX) :
    (List.range (common.parallel_for_blocked.numBlocks begin end_ blockSize)).map
        (common.parallel_for_blocked.block begin end_ blockSize)
      = common.blocksOfRange begin end_ blockSize := by
  rw [common.numBlocks_eq_ceilBlocks begin end_ blockSize hle hbs hmax]
  unfold common.blocksOfRange
  apply List.map_congr_left
  intro k hk
  exact common.block_eq begin end_ blockSize k hbs hmax (List.mem_range.mp hk)

/-- The blocks of a range are pairwise different. -/
theorem common.blocksOfRange_nodup (begin end_ blockSize : Nat) (hbs : 0 < blockSize) :
    (common.blocksOfRange begin end_ blockSize).Nodup := by
  unfold common.blocksOfRange
  apply List.Nodup.map _ (List.nodup_range _)
  intro a b hab
  simp only [Prod.mk.injEq] at hab
  have : a * blockSize = b * blockSize := by omega
  exact Nat.eq_of_mul_eq_mul_right hbs this

/-- The loop of `serial_for_blocked` on an empty range ends at once, without a
call. -/
theorem common.serial_for_blocked_empty {σ : Type} (fuel begin end_ blockSize : Nat)
    (f : Nat → Nat → σ → σ) (s : σ) (h : end_ ≤ begin) :
    common.serial_for_blocked (fuel + 1) begin end_ blockSize f s = some s := by
  unfold common.serial_for_blocked common.serial_for_blocked.loop
  rw [if_neg (by omega)]

/-- C11: for `begin <= end`, `blockSize > 0` and `end + blockSize` within `size_t`,
`serial_for_blocked` ends (given fuel for more than `ceil((end-begin)/blockSize)`
tests of its condition) after exactly that many calls, and the blocks it passes,
in call order, are block `k = (begin + k*blockSize, min(begin + (k+1)*blockSize,
end))`: they start at `begin`, each block starts where the one before it ends,
the last ends at `end`, every block is non-empty, every block but the last has
length `blockSize` and the last a length between 1 and `blockSize`.  On a range
with `begin >= end` the task function is never called. -/
theorem C11_serial_for_blocked_partition (begin end_ blockSize : Nat) (hle : begin ≤ end_)
    (hbs : 0 < blockSize) (hmax : end_ + blockSize ≤ common.SIZE_MAX) :
    (∀ (σ : Type) (f : Nat → Nat → σ → σ) (s : σ) (fuel : Nat),
      common.ceilBlocks begin end_ blockSize < fuel →
      common.serial_for_blocked fuel begin end_ blockSize f s
        = some ((common.blocksOfRange begin end_ blockSize).foldl (fun t c => f c.1 c.2 t) s)) ∧
    (∀ fuel, common.ceilBlocks begin end_ blockSize < fuel →
      common.serial_for_blocked fuel begin end_ blockSize common.recordBlock []
        = some (common.blocksOfRange begin end_ blockSize)) ∧
    (common.blocksOfRange begin end_ blockSize).length
      = common.ceilBlocks begin end_ blockSize ∧
    (∀ m, common.ceilBlocks begin end_ blockSize ≤ m ↔ end_ - begin ≤ m * blockSize) ∧
    (∀ k, k < common.ceilBlocks begin end_ blockSize →
      (common.blocksOfRange begin end_ blockSize)[k]?
        = some (begin + k * blockSize, min (begin + (k + 1) * blockSize) end_) ∧
      begin + k * blockSize < min (begin + (k + 1) * blockSize) end_ ∧
      (k + 1 < common.ceilBlocks begin end_ blockSize →
        min (begin + (k + 1) * blockSize) end_ = begin + (k + 1) * blockSize ∧
        min (begin + (k + 1) * blockSize) end_ - (begin + k * blockSize) = blockSize) ∧
      (k + 1 = common.ceilBlocks begin end_ blockSize →
        min (begin + (k + 1) * blockSize) end_ = end_ ∧
        1 ≤ end_ - (begin + k * blockSize) ∧ end_ - (begin + k * blockSize) ≤ blockSize)) ∧
    (∀ (b e size fuel : Nat), e ≤ b →
      common.serial_for_blocked (fuel + 1) b e size common.recordBlock [] = some []) := by
  have hloop : ∀ (σ : Type) (f : Nat → Nat → σ → σ) (s : σ) (fuel : Nat),
      common.ceilBlocks begin end_ blockSize < fuel →
      common.serial_for_blocked fuel begin end_ blockSize f s
        = some ((common.blocksOfRange begin end_ blockSize).foldl
            (fun t c => f c.1 c.2 t) s) := by
    intro σ f s fuel hfuel
    exact common.serial_for_blocked_loop_eq end_ blockSize f hbs hmax fuel begin s hfuel
  refine ⟨hloop, ?_, ?_, ?_, ?_, ?_⟩
  · intro fuel hfuel
    rw [hloop _ common.recordBlock [] fuel hfuel]
    have := foldl_append_singleton (common.blocksOfRange begin end_ blockSize) []
    simpa [common.recordBlock] using this
  · simp [common.blocksOfRange]
  · intro m
    have := common.ceilBlocks_lt_iff begin end_ blockSize m hbs
    constructor
    · intro h
      have h1 : ¬ begin + m * blockSize < end_ := fun hc => by
        have := this.mpr hc
        omega
      omega
    · intro h
      by_contra hc
      have := this.mp (by omega)
      omega
  · intro k hk
    have hk1 := (common.ceilBlocks_lt_iff begin end_ blockSize k hbs).mp hk
    have hnext := common.ceilBlocks_lt_iff begin end_ blockSize (k + 1) hbs
    have e : begin + (k + 1) * blockSize = begin + k * blockSize + blockSize := by
      rw [Nat.add_mul, Nat.one_mul]; omega
    refine ⟨?_, ?_, ?_, ?_⟩
    · unfold common.blocksOfRange
      rw [List.getElem?_map, List.getElem?_range hk]
      rfl
    · rw [e]; omega
    · intro h
      have := hnext.mp h
      rw [e] at this ⊢
      omega
    · intro h
      have h1 : ¬ begin + (k + 1) * blockSize < end_ := fun hc => by
        have := hnext.mpr hc
        omega
      rw [e] at h1 ⊢
      omega
  · intro b e size fuel h
    exact common.serial_for_blocked_empty fuel b e size common.recordBlock [] h

/-- C11, on the range `[3, 20)` in blocks of 5: four calls, with the blocks
`(3,8), (8,13), (13,18), (18,20)`. -/
theorem C11_serial_for_blocked_partition_witness :
    common.serial_for_blocked 5 3 20 5 common.recordBlock []
      = some [(3, 8), (8, 13), (13, 18), (18, 20)] :=
  ((C11_serial_for_blocked_partition 3 20 5 (by decide) (by decide) (by decide)).2.1 5
    (by decide)).trans (by decide)

/-- C12: for `begin <= end`, `blockSize > 0` and `end + blockSize` within `size_t`,
in both variants and under every schedule of `tbb::parallel_for`,
`parallel_for_blocked` computes `numBlocks = ceil((end-begin)/blockSize)`, its
block `k` is `(begin + k*blockSize, min(begin + (k+1)*blockSize, end))`, and it
calls the task function on exactly the blocks `serial_for_blocked` passes, each
exactly once, in an order that depends on the schedule (without TBB in the same
order). -/
theorem C12_parallel_for_blocked_same_blocks (OWL_HAVE_TBB : Bool)
    (schedule : Nat → Nat → List Nat)
    (hschedule : ∀ first last, (schedule first last).Perm (List.range' first (last - first)))
    (begin end_ blockSize : Nat) (hle : begin ≤ end_)
    (hbs : 0 < blockSize) (hmax : end_ + blockSize ≤ common.SIZE_MAX) :
    common.parallel_for_blocked.numBlocks begin end_ blockSize
      = common.ceilBlocks begin end_ blockSize ∧
    (∀ k, k < common.ceilBlocks begin end_ blockSize →
      common.parallel_for_blocked.block begin end_ blockSize k
        = (begin + k * blockSize, min (begin + (k + 1) * blockSize) end_)) ∧
    (∀ (σ : Type) (f : Nat → Nat → σ → σ) (s : σ), ∃ blocks : List (Nat × Nat),
      blocks.Perm (common.blocksOfRange begin end_ blockSize) ∧
      common.parallel_for_blocked OWL_HAVE_TBB schedule begin end_ blockSize f s
        = some (blocks.foldl (fun t c => f c.1 c.2 t) s)) ∧
    (∃ log serialLog,
      common.parallel_for_blocked OWL_HAVE_TBB schedule begin end_ blockSize
        common.recordBlock [] = some log ∧
      common.serial_for_blocked (common.ceilBlocks begin end_ blockSize + 1) begin end_ blockSize
        common.recordBlock [] = some serialLog ∧
      log.Perm serialLog ∧ serialLog.Nodup ∧ log.Nodup ∧
      serialLog = common.blocksOfRange begin end_ blockSize ∧
      ∀ c, c ∈ log ↔ c ∈ serialLog) ∧
    common.parallel_for_blocked false schedule begin end_ blockSize common.recordBlock []
      = common.serial_for_blocked (common.ceilBlocks begin end_ blockSize + 1) begin end_
          blockSize common.recordBlock [] := by
  have hcalls : ∀ (tbb : Bool) (σ : Type) (f : Nat → Nat → σ → σ) (s : σ),
      ∃ blocks : List (Nat × Nat),
      blocks.Perm (common.blocksOfRange begin end_ blockSize) ∧
      (tbb = false → blocks = common.blocksOfRange begin end_ blockSize) ∧
      common.parallel_for_blocked tbb schedule begin end_ blockSize f s
        = some (blocks.foldl (fun t c => f c.1 c.2 t) s) := by
    intro tbb σ f s
    cases tbb with
    | true =>
      obtain ⟨order, hperm, heq⟩ := common.parallel_for_blocked_calls true schedule
        hschedule begin end_ blockSize (by omega) f s
      refine ⟨_, ?_, fun h => absurd h (by decide), heq⟩
      rw [← common.blocksOfRange_eq_map_block begin end_ blockSize hle hbs hmax]
      exact hperm.map _
    | false =>
      refine ⟨_, List.Perm.refl _, fun _ => rfl, ?_⟩
      unfold common.parallel_for_blocked common.parallel_for
      rw [if_neg (by omega)]
      simp only [Bool.false_eq_true, if_false]
      rw [common.serial_for_eq, ← common.blocksOfRange_eq_map_block begin end_ blockSize hle hbs hmax,
        List.foldl_map]
  have hserial : common.serial_for_blocked (common.ceilBlocks begin end_ blockSize + 1) begin end_
      blockSize common.recordBlock [] = some (common.blocksOfRange begin end_ blockSize) := by
    unfold common.serial_for_blocked
    rw [common.serial_for_blocked_loop_eq end_ blockSize common.recordBlock hbs hmax _ begin []
      (by omega)]
    have := foldl_append_singleton (common.blocksOfRange begin end_ blockSize) []
    simpa [common.recordBlock] using this
  have hlog : ∀ (tbb : Bool), ∃ log : List (Nat × Nat),
      log.Perm (common.blocksOfRange begin end_ blockSize) ∧
      (tbb = false → log = common.blocksOfRange begin end_ blockSize) ∧
      common.parallel_for_blocked tbb schedule begin end_ blockSize common.recordBlock []
        = some log := by
    intro tbb
    obtain ⟨blocks, hperm, hfalse, heq⟩ := hcalls tbb _ common.recordBlock []
    refine ⟨blocks, hperm, hfalse, ?_⟩
    rw [heq]
    have := foldl_append_singleton blocks []
    simpa [common.recordBlock] using this
  refine ⟨common.numBlocks_eq_ceilBlocks begin end_ blockSize hle hbs hmax,
    fun k hk => common.block_eq begin end_ blockSize k hbs hmax hk, ?_, ?_, ?_⟩
  · intro σ f s
    obtain ⟨blocks, hperm, -, heq⟩ := hcalls OWL_HAVE_TBB σ f s
    exact ⟨blocks, hperm, heq⟩
  · obtain ⟨log, hperm, -, heq⟩ := hlog OWL_HAVE_TBB
    have hnodup := common.blocksOfRange_nodup begin end_ blockSize hbs
    exact ⟨log, _, heq, hserial, hperm, hnodup, hperm.nodup_iff.mpr hnodup, rfl,
      fun c => hperm.mem_iff⟩
  · obtain ⟨log, -, hfalse, heq⟩ := hlog false
    rw [heq, hserial, hfalse rfl]

/-- C12, on the range `[3, 20)` in blocks of 5 with TBB and a scheduler that
starts the tasks in descending order: the four blocks of `serial_for_blocked`,
each once. -/
theorem C12_parallel_for_blocked_same_blocks_witness :
    common.parallel_for_blocked.numBlocks 3 20 5 = 4 ∧
    ∃ blocks : List (Nat × Nat),
      blocks.Perm (common.blocksOfRange 3 20 5) ∧
      common.parallel_for_blocked true (fun first last => (List.range' first (last - first)).reverse)
        3 20 5 common.recordBlock []
        = some (blocks.foldl (fun t c => common.recordBlock c.1 c.2 t) []) :=
  have h := C12_parallel_for_blocked_same_blocks true
    (fun first last => (List.range' first (last - first)).reverse)
    (fun _ _ => List.reverse_perm _) 3 20 5 (by decide) (by decide) (by decide)
  ⟨h.1.trans (by decide), h.2.2.1 _ common.recordBlock []⟩

/-- C13: on a range with `begin > end`, `serial_for_blocked` never calls the task
function, but `parallel_for_blocked`, in both variants and under every schedule,
calls it `numBlocks` times, where `numBlocks` comes from the wrapped difference
`end - begin`: for `begin = 1, end = 0, blockSize = 1` that is `2^64 - 1` calls,
and for `begin = 2^63, end = 0, blockSize = 2^62` the two calls on
`(2^63, 0)` and `(2^63 + 2^62, 0)`. -/
theorem C13_parallel_for_blocked_reversed_range (OWL_HAVE_TBB : Bool)
    (schedule : Nat → Nat → List Nat)
    (hschedule : ∀ first last, (schedule first last).Perm (List.range' first (last - first))) :
    (∀ (begin end_ blockSize fuel : Nat), end_ < begin →
      common.serial_for_blocked (fuel + 1) begin end_ blockSize common.recordBlock []
        = some []) ∧
    (∀ (begin end_ blockSize : Nat), blockSize ≠ 0 → ∃ log,
      common.parallel_for_blocked OWL_HAVE_TBB schedule begin end_ blockSize
        common.recordBlock [] = some log ∧
      log.length = common.parallel_for_blocked.numBlocks begin end_ blockSize) ∧
    (∃ log, common.parallel_for_blocked OWL_HAVE_TBB schedule 1 0 1 common.recordBlock []
        = some log ∧ log.length = 2 ^ 64 - 1) ∧
    (∃ log, common.parallel_for_blocked OWL_HAVE_TBB schedule (2 ^ 63) 0 (2 ^ 62)
        common.recordBlock [] = some log ∧
      log.Perm [(2 ^ 63, 0), (2 ^ 63 + 2 ^ 62, 0)]) := by
  have hlog : ∀ (begin end_ blockSize : Nat), blockSize ≠ 0 → ∃ order : List Nat,
      order.Perm (List.range (common.parallel_for_blocked.numBlocks begin end_ blockSize)) ∧
      common.parallel_for_blocked OWL_HAVE_TBB schedule begin end_ blockSize
        common.recordBlock []
        = some (order.map (common.parallel_for_blocked.block begin end_ blockSize)) := by
    intro begin end_ blockSize hbs
    obtain ⟨order, hperm, heq⟩ := common.parallel_for_blocked_calls OWL_HAVE_TBB schedule
      hschedule begin end_ blockSize hbs common.recordBlock []
    refine ⟨order, hperm, ?_⟩
    rw [heq]
    have := foldl_append_singleton
      (order.map (common.parallel_for_blocked.block begin end_ blockSize)) []
    simpa [common.recordBlock] using this
  have hlen : ∀ (begin end_ blockSize : Nat), blockSize ≠ 0 → ∃ log,
      common.parallel_for_blocked OWL_HAVE_TBB schedule begin end_ blockSize
        common.recordBlock [] = some log ∧
      log.length = common.parallel_for_blocked.numBlocks begin end_ blockSize := by
    intro begin end_ blockSize hbs
    obtain ⟨order, hperm, heq⟩ := hlog begin end_ blockSize hbs
    refine ⟨_, heq, ?_⟩
    rw [List.length_map, hperm.length_eq, List.length_range]
  refine ⟨fun begin end_ blockSize fuel h =>
      common.serial_for_blocked_empty fuel begin end_ blockSize common.recordBlock []
        (Nat.le_of_lt h),
    hlen, ?_, ?_⟩
  · obtain ⟨log, heq, hl⟩ := hlen 1 0 1 (by decide)
    exact ⟨log, heq, hl.trans (by decide)⟩
  · obtain ⟨order, hperm, heq⟩ := hlog (2 ^ 63) 0 (2 ^ 62) (by decide)
    refine ⟨_, heq, ?_⟩
    have h2 : common.parallel_for_blocked.numBlocks (2 ^ 63) 0 (2 ^ 62) = 2 := by decide
    rw [h2] at hperm
    exact (hperm.map _).trans (by decide)

/-- C13, without TBB: on `begin = 2^63, end = 0, blockSize = 2^62` the task
function is called twice. -/
theorem C13_parallel_for_blocked_reversed_range_witness :
    common.serial_for_blocked 1 (2 ^ 63) 0 (2 ^ 62) common.recordBlock [] = some [] ∧
    ∃ log, common.parallel_for_blocked false (fun first last => List.range' first (last - first))
        (2 ^ 63) 0 (2 ^ 62) common.recordBlock [] = some log ∧
      log.Perm [(2 ^ 63, 0), (2 ^ 63 + 2 ^ 62, 0)] :=
  have h := C13_parallel_for_blocked_reversed_range false
    (fun first last => List.range' first (last - first)) (fun _ _ => List.Perm.refl _)
  ⟨h.1 (2 ^ 63) 0 (2 ^ 62) 0 (by decide), h.2.2.2⟩

/-- C14: for every `n`, `serial_for(n, f)` runs `f` on `0, 1, ..., n-1` in that
order: the indices it is invoked with are strictly ascending, each index of
`[0, n)` occurs exactly once and no other index occurs; without TBB,
`parallel_for(n, f)` is `serial_for(n, f)` and produces the identical sequence of
calls. -/
theorem C14_serial_for_ascending (n : Nat) (schedule : Nat → Nat → List Nat) :
    (∀ (σ : Type) (f : Nat → σ → σ) (s : σ),
      common.serial_for n f s = (List.range n).foldl (fun t i => f i t) s) ∧
    common.serial_for n common.recordIndex [] = List.range n ∧
    (common.serial_for n common.recordIndex []).Pairwise (fun i j => i < j) ∧
    (∀ i, (common.serial_for n common.recordIndex []).count i = if i < n then 1 else 0) ∧
    (∀ k, k < n → (common.serial_for n common.recordIndex [])[k]? = some k) ∧
    (∀ (σ : Type) (f : Nat → σ → σ) (s : σ),
      common.parallel_for false schedule n f s = common.serial_for n f s) ∧
    common.parallel_for false schedule n common.recordIndex []
      = common.serial_for n common.recordIndex [] := by
  have hlog : common.serial_for n common.recordIndex [] = List.range n := by
    rw [common.serial_for_eq]
    have := foldl_append_singleton (List.range n) []
    simpa [common.recordIndex] using this
  refine ⟨fun σ f s => common.serial_for_eq n f s, hlog, ?_, ?_, ?_, fun σ f s => rfl, rfl⟩
  · rw [hlog]
    exact List.pairwise_lt_range n
  · intro i
    rw [hlog]
    by_cases hi : i < n
    · rw [if_pos hi]
      exact List.count_eq_one_of_mem (List.nodup_range n) (List.mem_range.mpr hi)
    · rw [if_neg hi]
      exact List.count_eq_zero_of_not_mem (fun h => hi (List.mem_range.mp h))
  · intro k hk
    rw [hlog]
    exact List.getElem?_range hk

end owl
